import Mathlib

/-!
Verification development for the task-manager agent repository.

The definitions below are a shallow embedding of the Python sources:
`storage.py`, `mcp_server.py`, `mcp_client.py`, `skill_router.py` and
`agent.py`.  Python/JSON values are modelled by the inductive `PyVal`;
Python exceptions are modelled with `Except`/explicit outcome types at
exactly the places the source code can raise or catch; text processing
(`str.strip`, the `re` patterns, substring tests) is modelled over ASCII
character lists, matching the character classes the source relies on.
-/

namespace TaskManager

/-! ## Character and string helpers (models of Python text primitives) -/

/-- Model of the character class `\s` used by `str.strip()` and the
`re` patterns in `agent.py` (ASCII whitespace). -/
def isPySpace (c : Char) : Bool :=
  c == ' ' || c == '\t' || c == '\n' || c == '\r' || c == '\x0b' || c == '\x0c'

/-- Model of the regex character class `\d` (ASCII digits). -/
def isAsciiDigit (c : Char) : Bool :=
  '0' ≤ c && c ≤ '9'

/-- Does the first list start with the second one (literal match)? -/
def listStartsWith : List Char → List Char → Bool
  | _, [] => true
  | [], _ :: _ => false
  | c :: cs, p :: ps => c == p && listStartsWith cs ps

/-- Model of Python's substring test `pat in s` on character lists. -/
def containsSub : List Char → List Char → Bool
  | [], pat => pat.isEmpty
  | c :: cs, pat => listStartsWith (c :: cs) pat || containsSub cs pat

/-- Consume a literal from the front of a character list, returning the rest. -/
def dropLiteral : List Char → List Char → Option (List Char)
  | cs, [] => some cs
  | [], _ :: _ => Option.none
  | c :: cs, p :: ps => if c == p then dropLiteral cs ps else Option.none

/-- Model of Python's `str.strip()` on character lists. -/
def pyStripChars (cs : List Char) : List Char :=
  ((cs.dropWhile isPySpace).reverse.dropWhile isPySpace).reverse

/-- Model of Python's `str.strip()`. -/
def pyStrip (s : String) : String :=
  ⟨pyStripChars s.data⟩

/-- The decimal digit character for a value below ten. -/
def digitChar : Nat → Char
  | 0 => '0' | 1 => '1' | 2 => '2' | 3 => '3' | 4 => '4'
  | 5 => '5' | 6 => '6' | 7 => '7' | 8 => '8' | _ => '9'

/-- Fuel-driven digit accumulator: peels decimal digits from the right.
The fuel only bounds the recursion depth; `n + 1` units always suffice
since the value shrinks by a factor of ten per step. -/
def natToCharsGo : Nat → Nat → List Char → List Char
  | 0, _, acc => acc
  | fuel + 1, n, acc =>
    if n < 10 then digitChar n :: acc
    else natToCharsGo fuel (n / 10) (digitChar (n % 10) :: acc)

/-- Decimal rendering of a natural number, modelling Python's `str(int)`
for non-negative values. -/
def natToChars (n : Nat) : List Char :=
  natToCharsGo (n + 1) n []

/-- Model of Python's `str(int)` on arbitrary integers. -/
def pyIntChars (n : Int) : List Char :=
  if n < 0 then '-' :: natToChars (-n).toNat else natToChars n.toNat

/-- Model of Python's `str(int)` as a `String`. -/
def pyIntStr (n : Int) : String :=
  ⟨pyIntChars n⟩

/-- Model of Python's `int` applied to a string of decimal digits
(as produced by a `(\d+)` regex group). -/
def digitsToNat (ds : List Char) : Nat :=
  ds.foldl (fun a c => 10 * a + (c.toNat - 48)) 0

/-! ## Python/JSON values -/

/-- Model of the Python values that flow across the JSON boundaries of the
program: `None`, booleans, integers, strings, lists and (string-keyed)
dictionaries. -/
inductive PyVal where
  | none
  | bool (b : Bool)
  | int (n : Int)
  | str (s : String)
  | list (xs : List PyVal)
  | dict (kvs : List (String × PyVal))

/-- Model of Python's `dict.get(key)` (default `None`). -/
def dictGet (kvs : List (String × PyVal)) (k : String) : PyVal :=
  match kvs.lookup k with
  | some v => v
  | Option.none => PyVal.none

mutual

/-- Model of Python's `repr` on JSON-like values (used by `str` on
containers). -/
def pyRepr : PyVal → String
  | PyVal.none => "None"
  | PyVal.bool b => if b then "True" else "False"
  | PyVal.int n => pyIntStr n
  | PyVal.str s => "'" ++ s ++ "'"
  | PyVal.list xs => "[" ++ String.intercalate ", " (pyReprList xs) ++ "]"
  | PyVal.dict kvs => "\x7b" ++ String.intercalate ", " (pyReprDict kvs) ++ "\x7d"

/-- Renders each element of a list with `pyRepr`. -/
def pyReprList : List PyVal → List String
  | [] => []
  | v :: vs => pyRepr v :: pyReprList vs

/-- Renders each entry of a dictionary with `pyRepr`. -/
def pyReprDict : List (String × PyVal) → List String
  | [] => []
  | (k, v) :: kvs => ("'" ++ k ++ "': " ++ pyRepr v) :: pyReprDict kvs

end

/-- Model of Python's `str()` on JSON-like values. -/
def pyStr : PyVal → String
  | PyVal.str s => s
  | PyVal.bool b => if b then "True" else "False"
  | v => pyRepr v

/-! ## storage.py -/

/-- A stored task record (`{"id": ..., "title": ..., "done": ...}`). -/
structure Task where
  id : Int
  title : String
  done : Bool
deriving DecidableEq

/-- The contents of `tasks.json`, the single mutable store. -/
abbrev TaskStore := List Task

/-- Model of `storage.next_id`: `max(task["id"] for task in tasks) + 1`,
or `1` on an empty store. -/
def next_id (tasks : TaskStore) : Int :=
  match tasks.map Task.id with
  | [] => 1
  | x :: xs => xs.foldl max x + 1

/-- Model of `storage.add_task`.  The returned string is the text printed
(with its trailing newline), and the returned store is what is saved. -/
def add_task (title : String) (tasks : TaskStore) : TaskStore × String :=
  let t : Task := { id := next_id tasks, title := title, done := false }
  (tasks ++ [t], "Added task #" ++ pyIntStr t.id ++ ": " ++ t.title ++ "\n")

/-- The checklist line printed for one task by `storage.list_tasks`
(`f"{task['id']}. {status} {task['title']}"`), without its newline. -/
def taskLineChars (t : Task) : List Char :=
  pyIntChars t.id ++ (". ").data ++ (if t.done then "[x]" else "[ ]").data
    ++ (" ").data ++ t.title.data

/-- Model of `storage.list_tasks`: prints `"No tasks yet."` on an empty
store, otherwise one checklist line per task. -/
def list_tasks (tasks : TaskStore) : TaskStore × String :=
  match tasks with
  | [] => (tasks, "No tasks yet.\n")
  | _ => (tasks, ⟨(tasks.map (fun t => taskLineChars t ++ ['\n'])).flatten⟩)

/-- Model of `storage.mark_done`: marks the first task with the given id
as done, or prints a not-found message. -/
def mark_done (task_id : Int) (tasks : TaskStore) : TaskStore × String :=
  match tasks with
  | [] => ([], "Task #" ++ pyIntStr task_id ++ " not found.\n")
  | t :: rest =>
    if t.id = task_id then
      ({ t with done := true } :: rest,
       "Marked task #" ++ pyIntStr task_id ++ " as done.\n")
    else
      let (r, out) := mark_done task_id rest
      (t :: r, out)

/-- Model of `storage.delete_task`: deletes the first task with the given
id, or prints a not-found message. -/
def delete_task (task_id : Int) (tasks : TaskStore) : TaskStore × String :=
  match tasks with
  | [] => ([], "Task #" ++ pyIntStr task_id ++ " not found.\n")
  | t :: rest =>
    if t.id = task_id then
      (rest, "Deleted task #" ++ pyIntStr task_id ++ ": " ++ t.title ++ "\n")
    else
      let (r, out) := delete_task task_id rest
      (t :: r, out)

/-- Model of `list(dict.fromkeys(task_ids))`: removes duplicates keeping
the first occurrence of each id. -/
def pyDedup : List Int → List Int
  | [] => []
  | x :: xs => x :: pyDedup (xs.filter (fun y => y != x))
termination_by l => l.length
decreasing_by
  simp only [List.length_cons]
  exact Nat.lt_succ_of_le (List.length_filter_le _ _)

/-- Model of `storage.delete_tasks`: deletes all tasks whose ids appear in
the (deduplicated) id list, printing a bulk confirmation. -/
def delete_tasks (task_ids : List Int) (tasks : TaskStore) : TaskStore × String :=
  let unique_ids := pyDedup task_ids
  if unique_ids = [] then (tasks, "No tasks deleted.\n")
  else
    let deleted := tasks.filter (fun t => unique_ids.contains t.id)
    if deleted = [] then (tasks, "No tasks deleted.\n")
    else
      let deleted_ids := deleted.map Task.id
      let remaining := tasks.filter (fun t => !unique_ids.contains t.id)
      let ids_text := String.intercalate ", " (deleted_ids.map pyIntStr)
      (remaining,
       "Deleted " ++ pyIntStr deleted_ids.length ++ " task(s): " ++ ids_text ++ "\n")

/-! ## mcp_server.py -/

/-- Model of `mcp_server._capture_storage_output`: the captured stdout text,
stripped, defaulting to `"OK"` when nothing (or only whitespace) was printed. -/
def _capture_storage_output (printed : String) : String :=
  let s := pyStrip printed
  if s = "" then "OK" else s

/-- Model of Python's `isinstance(x, int)`, which also accepts booleans
(`bool` is a subclass of `int`); booleans coerce to 1/0. -/
def pyAsInt : PyVal → Option Int
  | PyVal.int n => some n
  | PyVal.bool b => some (if b then 1 else 0)
  | _ => Option.none

/-- Model of `mcp_server._dispatch_tool`.  A `.error` value models a raised
`ValueError` (caught by `handle_request`); `.ok` carries the updated store
and the captured result text. -/
def _dispatch_tool (tool : String) (arguments : List (String × PyVal))
    (store : TaskStore) : Except String (TaskStore × String) :=
  if tool = "add_task" then
    match dictGet arguments "text" with
    | PyVal.str text =>
      if pyStrip text = "" then
        .error "'add_task' requires a non-empty string argument: text"
      else
        let (st, out) := add_task text store
        .ok (st, _capture_storage_output out)
    | _ => .error "'add_task' requires a non-empty string argument: text"
  else if tool = "list_tasks" then
    if !arguments.isEmpty then .error "'list_tasks' does not accept arguments"
    else
      let (st, out) := list_tasks store
      .ok (st, _capture_storage_output out)
  else if tool = "complete_task" then
    match pyAsInt (dictGet arguments "task_id") with
    | some task_id =>
      let (st, out) := mark_done task_id store
      .ok (st, _capture_storage_output out)
    | Option.none => .error "'complete_task' requires integer argument: task_id"
  else if tool = "delete_task" then
    match pyAsInt (dictGet arguments "task_id") with
    | some task_id =>
      let (st, out) := delete_task task_id store
      .ok (st, _capture_storage_output out)
    | Option.none => .error "'delete_task' requires integer argument: task_id"
  else if tool = "delete_tasks" then
    match dictGet arguments "task_ids" with
    | PyVal.list ids =>
      if ids.isEmpty then
        .error "'delete_tasks' requires non-empty array argument: task_ids"
      else
        match ids.mapM pyAsInt with
        | some task_ids =>
          let (st, out) := delete_tasks task_ids store
          .ok (st, _capture_storage_output out)
        | Option.none => .error "'delete_tasks' requires all task_ids to be integers"
    | _ => .error "'delete_tasks' requires non-empty array argument: task_ids"
  else
    .error ("Unsupported tool: " ++ tool)

/-- One input line of the Tool Executor, abstracted to the outcome of
`json.loads`: either a decode error (with the exception's message) or the
parsed value. -/
inductive ParsedLine where
  | malformed (msg : String)
  | value (v : PyVal)

/-- The `{"status": "error", "error": msg}` response dictionary. -/
def errResp (msg : String) : PyVal :=
  PyVal.dict [("status", PyVal.str "error"), ("error", PyVal.str msg)]

/-- Model of `mcp_server.handle_request`: parses one request line and
returns the response dictionary together with the resulting store. -/
def handle_request (line : ParsedLine) (store : TaskStore) : PyVal × TaskStore :=
  match line with
  | .malformed m => (errResp ("Invalid JSON: " ++ m), store)
  | .value payload =>
    match payload with
    | PyVal.dict kvs =>
      let tool := dictGet kvs "tool"
      let arguments := (kvs.lookup "arguments").getD (PyVal.dict [])
      match tool with
      | PyVal.str t =>
        if t = "" then (errResp "Missing or invalid 'tool' field", store)
        else
          match arguments with
          | PyVal.dict akvs =>
            match _dispatch_tool t akvs store with
            | .error e => (errResp e, store)
            | .ok (st, result) =>
              (PyVal.dict [("status", PyVal.str "ok"), ("result", PyVal.str result)], st)
          | _ => (errResp "'arguments' must be a JSON object", store)
      | _ => (errResp "Missing or invalid 'tool' field", store)
    | _ => (errResp "Request must be a JSON object", store)

/-! ## mcp_client.py -/

/-- The outcome of `readline` on the child's stdout, abstracted to the
result of `json.loads` on the reply line: an empty read (child exited),
a line that fails to parse, or a parsed value. -/
inductive ReadResult where
  | disconnected
  | malformed (raw : String)
  | value (v : PyVal)

/-- The observable state of the spawned server process during one
`MCPClient.request` call: whether `poll()` reports it alive, whether the
stdin write raises `OSError`, what the stdout read yields, and any
buffered stderr text. -/
structure ProcEnv where
  running : Bool
  writeError : Option String
  read : ReadResult
  stderrText : String

/-- The part of `MCPClient.request` that runs before any I/O on the child
process: argument validation and payload construction.  A `.reply` is
returned to the caller without touching the child. -/
inductive LocalOutcome where
  | reply (resp : PyVal)
  | sendRequest (payload : PyVal)

/-- Is a Python value a non-empty string (`isinstance(tool, str) and tool`)? -/
def toolOk : PyVal → Bool
  | PyVal.str s => s ≠ ""
  | _ => false

/-- Is `arguments` acceptable to `MCPClient.request` (a dict, or `None`
which is normalized to `{}`)? -/
def argsOk : PyVal → Bool
  | PyVal.none => true
  | PyVal.dict _ => true
  | _ => false

/-- Model of the validation prefix of `MCPClient.request`
(mcp_client.py lines 57-73): everything up to the first write. -/
def requestLocal (tool arguments : PyVal) : LocalOutcome :=
  match tool with
  | PyVal.str t =>
    if t = "" then .reply (errResp "'tool' must be a non-empty string")
    else
      let args := match arguments with
        | PyVal.none => PyVal.dict []
        | a => a
      match args with
      | PyVal.dict kvs =>
        .sendRequest (PyVal.dict [("tool", PyVal.str t), ("arguments", PyVal.dict kvs)])
      | _ => .reply (errResp "'arguments' must be a dictionary")
  | _ => .reply (errResp "'tool' must be a non-empty string")

/-- Model of the I/O half of `MCPClient.request`: the write, the read and
the reply checks, with every failure converted to a status-tagged error
dictionary. -/
def requestOverPipe (env : ProcEnv) : PyVal :=
  if !env.running then errResp "Server is not running. Call start() first."
  else
    match env.writeError with
    | some e => errResp ("Failed to write to server stdin: " ++ e)
    | Option.none =>
      match env.read with
      | .disconnected =>
        let stderrStripped := pyStrip env.stderrText
        let detail := if stderrStripped = "" then "No response from server." else stderrStripped
        errResp ("Server disconnected: " ++ detail)
      | .malformed raw =>
        PyVal.dict [("status", PyVal.str "error"),
                    ("error", PyVal.str "Server returned invalid JSON response"),
                    ("raw_response", PyVal.str (pyStrip raw))]
      | .value v =>
        match v with
        | PyVal.dict kvs =>
          if (kvs.lookup "status").isSome then PyVal.dict kvs
          else
            PyVal.dict [("status", PyVal.str "error"),
                        ("error", PyVal.str "Server response missing required field: status"),
                        ("raw_response", PyVal.dict kvs)]
        | _ => errResp "Server response must be a JSON object"

/-- Model of `MCPClient.request`: local validation first, then (only when
validation passes) the I/O round trip. -/
def request (tool arguments : PyVal) (env : ProcEnv) : PyVal :=
  match requestLocal tool arguments with
  | .reply r => r
  | .sendRequest _ => requestOverPipe env

/-! ## skill_router.py -/

/-- The keys of `ALLOWED_SKILLS`, the only valid skill enum values. -/
def allowedSkillNames : List String :=
  ["always_on", "task_planning", "task_deletion", "status_reporting", "output_format"]

/-- One piece of router model output, abstracted to the outcome of
`json.loads` on the returned text. -/
inductive ModelText where
  | notJson
  | json (v : PyVal)

/-- Do two key lists denote the same Python key set (`set(a) == set(b)`)? -/
def keySetEq (a b : List String) : Bool :=
  a.all b.contains && b.all a.contains

/-- Is a string list free of duplicates (`len(xs) == len(set(xs))`)? -/
def listNodup : List String → Bool
  | [] => true
  | x :: xs => !(xs.contains x) && listNodup xs

/-- Extracts the strings of a Python list when every element is a string
(`all(isinstance(item, str) for item in skills)`). -/
def allStrings : List PyVal → Option (List String)
  | [] => some []
  | PyVal.str s :: rest => (allStrings rest).map (s :: ·)
  | _ => Option.none

/-- Model of Python's `repr` on a list of strings, used in the
`Unknown skills` validation message. -/
def pyReprStrList (xs : List String) : String :=
  "[" ++ String.intercalate ", " (xs.map (fun s => "'" ++ s ++ "'")) ++ "]"

/-- Model of `skill_router._validate_router_output`. -/
def _validate_router_output (raw : ModelText) : Bool × List String × String :=
  match raw with
  | .notJson => (false, [], "Output is not valid JSON.")
  | .json parsed =>
    match parsed with
    | PyVal.dict kvs =>
      if !keySetEq (kvs.map Prod.fst) ["skills", "reason"] then
        (false, [], "JSON keys must be exactly ['skills', 'reason'] with no extras.")
      else
        match dictGet kvs "skills" with
        | PyVal.list items =>
          match allStrings items with
          | Option.none => (false, [], "skills must contain only strings.")
          | some skills =>
            if !listNodup skills then
              (false, [], "skills must not contain duplicates.")
            else
              let unknown := skills.filter (fun s => !allowedSkillNames.contains s)
              if unknown ≠ [] then
                (false, [], "Unknown skills: " ++ pyReprStrList unknown ++ ".")
              else
                match dictGet kvs "reason" with
                | PyVal.str reason => (true, skills, reason)
                | _ => (false, [], "reason must be a string.")
        | _ => (false, [], "skills must be a JSON array.")
    | _ => (false, [], "JSON root must be an object.")

/-- Model of `skill_router._validate_intent_output`.  On success the middle
component is the `(wants_add, wants_delete)` boolean pair. -/
def _validate_intent_output (raw : ModelText) : Bool × (Bool × Bool) × String :=
  match raw with
  | .notJson => (false, (false, false), "Output is not valid JSON.")
  | .json parsed =>
    match parsed with
    | PyVal.dict kvs =>
      if !keySetEq (kvs.map Prod.fst) ["wants_add", "wants_delete", "reason"] then
        (false, (false, false),
         "JSON keys must be exactly ['wants_add', 'wants_delete', 'reason'] with no extras.")
      else
        match dictGet kvs "wants_add" with
        | PyVal.bool wa =>
          match dictGet kvs "wants_delete" with
          | PyVal.bool wd =>
            match dictGet kvs "reason" with
            | PyVal.str reason => (true, (wa, wd), reason)
            | _ => (false, (false, false), "reason must be a string.")
          | _ => (false, (false, false), "wants_delete must be a boolean.")
        | _ => (false, (false, false), "wants_add must be a boolean.")
    | _ => (false, (false, false), "JSON root must be an object.")

/-- The outcome of one `call_model_fn(prompt)` invocation: a raised
exception (caught by the router) or returned text. -/
inductive CallOutcome where
  | exc (msg : String)
  | text (t : ModelText)

/-- The retry loop of `route_skills_with_model`: `fuel` counts remaining
attempts, `k` is the index of the next attempt, `lastError` is threaded
into the next prompt and into the final failure reason. -/
def routeSkillsLoop (call : Nat → CallOutcome) (maxAttempts : Nat) :
    Nat → Nat → String → Bool × List String × String
  | 0, _, lastError =>
    (false, [],
     "Routing failed after " ++ pyIntStr maxAttempts ++ " attempt(s): " ++ lastError)
  | fuel + 1, k, _lastError =>
    match call k with
    | .exc e => routeSkillsLoop call maxAttempts fuel (k + 1) ("Model call failed: " ++ e)
    | .text t =>
      let r := _validate_router_output t
      if r.1 then (true, r.2.1, r.2.2)
      else routeSkillsLoop call maxAttempts fuel (k + 1) r.2.2

/-- Model of `skill_router.route_skills_with_model`.  The model calls are
abstracted as a function from the attempt index to that call's outcome. -/
def route_skills_with_model (goal : String) (call : Nat → CallOutcome)
    (max_attempts : Nat) : Bool × List String × String :=
  if pyStrip goal = "" then (false, [], "Goal must be a non-empty string.")
  else if max_attempts < 1 then (false, [], "max_attempts must be at least 1.")
  else routeSkillsLoop call max_attempts max_attempts 0 "No attempts were made."

/-- The retry loop of `route_goal_intent_with_model`. -/
def routeIntentLoop (call : Nat → CallOutcome) (maxAttempts : Nat) :
    Nat → Nat → String → Bool × (Bool × Bool) × String
  | 0, _, lastError =>
    (false, (false, false),
     "Intent routing failed after " ++ pyIntStr maxAttempts ++ " attempt(s): " ++ lastError)
  | fuel + 1, k, _lastError =>
    match call k with
    | .exc e => routeIntentLoop call maxAttempts fuel (k + 1) ("Model call failed: " ++ e)
    | .text t =>
      let r := _validate_intent_output t
      if r.1 then (true, r.2.1, r.2.2)
      else routeIntentLoop call maxAttempts fuel (k + 1) r.2.2

/-- Model of `skill_router.route_goal_intent_with_model`. -/
def route_goal_intent_with_model (goal : String) (call : Nat → CallOutcome)
    (max_attempts : Nat) : Bool × (Bool × Bool) × String :=
  if pyStrip goal = "" then (false, (false, false), "Goal must be a non-empty string.")
  else if max_attempts < 1 then (false, (false, false), "max_attempts must be at least 1.")
  else routeIntentLoop call max_attempts max_attempts 0 "No attempts were made."

/-! ## agent.py: regex evidence extraction -/

/-- Attempts the pattern `^\s*\d+\.\s+\[[ xX]\]\s+` (`_TASK_LINE_PATTERN`)
at the head of the list (the `^` anchor itself is handled by the caller).
The pattern is backtracking-free: each `\s`/`\d` run is maximal.  Returns
the characters after the match and whether the match's last consumed
character was a newline (so the caller knows whether it stands at a line
start). -/
def matchTaskLineAt (cs : List Char) : Option (List Char × Bool) :=
  let afterWs0 := cs.dropWhile isPySpace
  let digits := afterWs0.takeWhile isAsciiDigit
  if digits.isEmpty then Option.none
  else
    match afterWs0.dropWhile isAsciiDigit with
    | '.' :: r2 =>
      let wsA := r2.takeWhile isPySpace
      if wsA.isEmpty then Option.none
      else
        match r2.dropWhile isPySpace with
        | '[' :: c :: ']' :: r4 =>
          if c == ' ' || c == 'x' || c == 'X' then
            let wsB := r4.takeWhile isPySpace
            if wsB.isEmpty then Option.none
            else some (r4.dropWhile isPySpace, wsB.getLast? == some '\n')
          else Option.none
        | _ => Option.none
    | _ => Option.none

/-- Model of `re.findall(_TASK_LINE_PATTERN, text)` (with `re.MULTILINE`),
counting the matches: scan left to right; a match may start only at a line
start (`atStart`); on a match, scanning resumes after its end, otherwise
it advances one character.  The fuel only bounds the recursion depth:
every step consumes at least one character (a successful match consumes
the digits, the dot and the bracket group), so `length + 1` units always
suffice. -/
def scanTaskLinesGo : Nat → List Char → Bool → Nat
  | 0, _, _ => 0
  | fuel + 1, cs, atStart =>
    if atStart then
      match matchTaskLineAt cs with
      | some rb => 1 + scanTaskLinesGo fuel rb.1 rb.2
      | Option.none =>
        match cs with
        | [] => 0
        | c :: t => scanTaskLinesGo fuel t (c == '\n')
    else
      match cs with
      | [] => 0
      | c :: t => scanTaskLinesGo fuel t (c == '\n')

/-- The match count of `_TASK_LINE_PATTERN` over a whole string. -/
def scanTaskLines (cs : List Char) : Nat :=
  scanTaskLinesGo (cs.length + 1) cs true

/-- Model of `agent._parse_list_count`: zero on the explicit no-tasks
marker, else the number of recognized checklist lines (or `None` when
there are none). -/
def _parse_list_count (tool_result : String) : Option Nat :=
  if containsSub tool_result.data ("No tasks yet.").data then some 0
  else
    let n := scanTaskLines tool_result.data
    if n > 0 then some n else Option.none

/-- Attempts `LIT#\d+:` at the head of the list, for the literal prefixes
of `_ADD_SUCCESS_PATTERN` / `_DELETE_SUCCESS_PATTERN`. -/
def matchHashNumColonAt (lit : List Char) (cs : List Char) : Bool :=
  match dropLiteral cs lit with
  | Option.none => false
  | some r1 =>
    let digits := r1.takeWhile isAsciiDigit
    if digits.isEmpty then false
    else
      match r1.dropWhile isAsciiDigit with
      | ':' :: _ => true
      | _ => false

/-- Model of `re.search(_ADD_SUCCESS_PATTERN, s)` as a boolean
(`Added task #\d+:` anywhere in the string). -/
def searchAddSuccess (s : String) : Bool :=
  let rec go : List Char → Bool
    | [] => matchHashNumColonAt ("Added task #").data []
    | c :: t => matchHashNumColonAt ("Added task #").data (c :: t) || go t
  go s.data

/-- Model of `re.search(_DELETE_SUCCESS_PATTERN, s)` as a boolean
(`Deleted task #\d+:` anywhere in the string). -/
def searchDeleteSuccess (s : String) : Bool :=
  let rec go : List Char → Bool
    | [] => matchHashNumColonAt ("Deleted task #").data []
    | c :: t => matchHashNumColonAt ("Deleted task #").data (c :: t) || go t
  go s.data

/-- Attempts `Deleted\s+(\d+)\s+task\(s\):` (`_DELETE_BULK_SUCCESS_PATTERN`)
at the head of the list, returning the captured count. -/
def matchBulkDeleteAt (cs : List Char) : Option Nat :=
  match dropLiteral cs ("Deleted").data with
  | Option.none => Option.none
  | some r1 =>
    let ws1 := r1.takeWhile isPySpace
    if ws1.isEmpty then Option.none
    else
      let r2 := r1.dropWhile isPySpace
      let digits := r2.takeWhile isAsciiDigit
      if digits.isEmpty then Option.none
      else
        let r3 := r2.dropWhile isAsciiDigit
        let ws2 := r3.takeWhile isPySpace
        if ws2.isEmpty then Option.none
        else
          match dropLiteral (r3.dropWhile isPySpace) ("task(s):").data with
          | some _ => some (digitsToNat digits)
          | Option.none => Option.none

/-- Model of `re.search(_DELETE_BULK_SUCCESS_PATTERN, s)`, returning the
first match's captured count. -/
def searchBulkDelete (s : String) : Option Nat :=
  let rec go : List Char → Option Nat
    | [] => matchBulkDeleteAt []
    | c :: t =>
      match matchBulkDeleteAt (c :: t) with
      | some n => some n
      | Option.none => go t
  go s.data

/-! ## agent.py: goal validation state machine -/

/-- Model of the `GoalValidationState` dataclass.  The Python counters are
non-negative integers, so `Nat` is used. -/
structure GoalValidationState where
  wants_add : Bool
  wants_delete : Bool
  initial_count : Option Nat := Option.none
  latest_count : Option Nat := Option.none
  add_success_count : Nat := 0
  delete_success_count : Nat := 0
  saw_mutation : Bool := false
  saw_post_mutation_list : Bool := false
deriving DecidableEq

/-- Model of `agent._update_validation_state`. -/
def _update_validation_state (state : GoalValidationState) (tool_name : String)
    (tool_result : String) : GoalValidationState :=
  if tool_name = "list_tasks" then
    match _parse_list_count tool_result with
    | Option.none => state
    | some count =>
      let st1 :=
        if state.initial_count = Option.none then
          { state with initial_count := some count }
        else state
      let st2 := { st1 with latest_count := some count }
      if st2.saw_mutation then { st2 with saw_post_mutation_list := true } else st2
  else if tool_name = "add_task" then
    if searchAddSuccess tool_result then
      { state with add_success_count := state.add_success_count + 1, saw_mutation := true }
    else state
  else if tool_name = "delete_task" then
    if searchDeleteSuccess tool_result then
      { state with delete_success_count := state.delete_success_count + 1, saw_mutation := true }
    else state
  else if tool_name = "delete_tasks" then
    match searchBulkDelete tool_result with
    | Option.none => state
    | some deleted_count =>
      if deleted_count > 0 then
        { state with delete_success_count := state.delete_success_count + deleted_count,
                     saw_mutation := true }
      else state
  else state

/-- Model of `agent._validate_goal_completion`. -/
def _validate_goal_completion (state : GoalValidationState) : Bool × String :=
  if !state.wants_add && !state.wants_delete then
    (true, "No add/delete validation required.")
  else if state.wants_add && state.add_success_count < 1 then
    (false, "Goal requests add, but no successful add operation was observed.")
  else if state.wants_delete && state.delete_success_count < 1 then
    (false, "Goal requests delete, but no successful delete operation was observed.")
  else
    match state.initial_count, state.latest_count with
    | some ic, some lc =>
      if state.saw_mutation && !state.saw_post_mutation_list then
        (false, "Need a final list verification after add/delete operations.")
      else if state.wants_add && !state.wants_delete && lc ≤ ic then
        (false, "Add goal not satisfied: final task count did not increase.")
      else if state.wants_delete && !state.wants_add && lc ≥ ic then
        (false, "Delete goal not satisfied: final task count did not decrease.")
      else if state.wants_add && state.wants_delete &&
          (lc : Int) ≠ (ic : Int) + state.add_success_count - state.delete_success_count then
        (false, "Mixed add/delete validation mismatch: final count does not match operations.")
      else (true, "Validation passed.")
    | _, _ =>
      (false, "Need list output to compare task counts before and after operations.")

/-! ## agent.py: gateway token-parameter compatibility -/

/-- The outcome of one `client.chat.completions.create(...)` call with a
given token-limit parameter name: success or a raised exception with its
string rendering. -/
inductive ApiOutcome (α : Type) where
  | ok (r : α)
  | exc (msg : String)

/-- Model of `agent._is_unsupported_token_param_error`. -/
def _is_unsupported_token_param_error (msg param : String) : Bool :=
  containsSub msg.data ("unsupported_parameter").data &&
    containsSub msg.data ("'" ++ param ++ "'").data

/-- Model of `agent._format_openai_error_message`. -/
def _format_openai_error_message (msg model : String) : String :=
  "OpenAI request failed for model '" ++ model ++ "'. Details: " ++ msg ++
    ". Please verify model access and API parameter compatibility."

/-- The ordered token-limit parameter candidates of
`_create_chat_completion_with_token_compat`. -/
def tokenParamCandidates : List String :=
  ["max_completion_tokens", "max_tokens"]

/-- The candidate loop of `_create_chat_completion_with_token_compat`.
Besides the result (success, or the raised `RuntimeError`'s message) it
records which parameter names were actually sent, in order. -/
def tokenCompatLoop {α : Type} (call : String → ApiOutcome α) (model : String) :
    List String → Except String α × List String
  | [] => (.error ("OpenAI request failed for model '" ++ model ++ "'."), [])
  | p :: rest =>
    match call p with
    | .ok r => (.ok r, [p])
    | .exc e =>
      if _is_unsupported_token_param_error e p && !rest.isEmpty then
        let (res, tried) := tokenCompatLoop call model rest
        (res, p :: tried)
      else (.error (_format_openai_error_message e model), [p])

/-- Model of `agent._create_chat_completion_with_token_compat`. -/
def _create_chat_completion_with_token_compat {α : Type}
    (call : String → ApiOutcome α) (model : String) : Except String α × List String :=
  tokenCompatLoop call model tokenParamCandidates

/-! ## agent.py: run_agent -/

/-- One tool call returned by the model (`call.function.name`,
`call.function.arguments`, which the OpenAI SDK types as an optional raw
JSON *string*). -/
structure ToolCall where
  id : String
  name : String
  arguments : Option String

/-- The outcome of one main-loop gateway call: the `RuntimeError` message
caught at agent.py line 488, or an assistant message (its tool calls and
its text content, both defaulted to empty as in lines 495-496). -/
inductive ModelOutcome where
  | failure (msg : String)
  | reply (toolCalls : List ToolCall) (content : String)

/-- Everything outside `run_agent` that determines a run: the
`build_system_prompt` outcome (a `.error` is the caught `RuntimeError`),
the intent flags produced by `_detect_goal_intents_hybrid` (which never
raises), the child-process behaviour, and each step's gateway outcome. -/
structure AgentEnv where
  routing : Except String Unit
  wantsAdd : Bool
  wantsDelete : Bool
  proc : ProcEnv
  model : Nat → ModelOutcome

/-- Model of the tool-execution body at agent.py lines 505-530: the raw
argument string (`call.function.arguments or ""`) is handed to
`MCPClient.request` unparsed, and the textual tool result is extracted
from the status-tagged response. -/
def agentExecuteToolCall (call : ToolCall) (env : ProcEnv) : String :=
  let rawArgs := call.arguments.getD ""
  let resp := request (PyVal.str call.name) (PyVal.str rawArgs) env
  match resp with
  | PyVal.dict kvs =>
    match dictGet kvs "status" with
    | PyVal.str "ok" => pyStr ((kvs.lookup "result").getD (PyVal.str "OK"))
    | _ => pyStr ((kvs.lookup "error").getD (PyVal.str "Unknown tool error"))
  | _ => pyStr PyVal.none

/-- Processes one step's tool calls in order, threading the validation
state and the last non-blank tool result (agent.py lines 505-543). -/
def agentProcessCalls (env : ProcEnv) (calls : List ToolCall)
    (vs : GoalValidationState) (ltr : Option String) :
    GoalValidationState × Option String :=
  match calls with
  | [] => (vs, ltr)
  | c :: rest =>
    let r := agentExecuteToolCall c env
    let ltr' := if pyStrip r ≠ "" then some r else ltr
    let vs' := _update_validation_state vs c.name r
    agentProcessCalls env rest vs' ltr'

/-- The step-limit message of agent.py line 593. -/
def maxStepsMessage (maxSteps : Nat) : String :=
  "Stopped after reaching max_steps=" ++ pyIntStr maxSteps ++ "."

/-- The `for step in range(1, max_steps + 1)` loop of `run_agent`:
`fuel` counts remaining iterations, `step` is the 1-based step number
used to index gateway outcomes. -/
def runAgentLoop (env : AgentEnv) (maxSteps : Nat) :
    Nat → Nat → GoalValidationState → Option String → String
  | 0, _, _, _ => maxStepsMessage maxSteps
  | fuel + 1, step, vs, ltr =>
    match env.model step with
    | .failure msg => msg
    | .reply calls content =>
      match calls with
      | _ :: _ =>
        let pr := agentProcessCalls env.proc calls vs ltr
        runAgentLoop env maxSteps fuel (step + 1) pr.1 pr.2
      | [] =>
        if pyStrip content ≠ "" then
          if (_validate_goal_completion vs).1 then content
          else runAgentLoop env maxSteps fuel (step + 1) vs ltr
        else
          if (_validate_goal_completion vs).1 then
            match ltr with
            | some r => r
            | Option.none => "No final answer produced."
          else runAgentLoop env maxSteps fuel (step + 1) vs ltr

/-- The observable outcome of `run_agent`: a returned string, or an
exception escaping to the caller. -/
inductive RunOutcome where
  | raised (exc : String)
  | returned (answer : String)
deriving DecidableEq

/-- Model of `agent.run_agent`.  A blank goal raises `ValueError`
(line 427); a skill-routing `RuntimeError` is caught and returned as the
answer (lines 443-446); otherwise the bounded step loop runs with a fresh
`GoalValidationState` and no last tool result. -/
def run_agent (goal : String) (env : AgentEnv) (max_steps : Nat) : RunOutcome :=
  if pyStrip goal = "" then .raised "ValueError: goal must be a non-empty string"
  else
    match env.routing with
    | .error msg => .returned msg
    | .ok _ =>
      .returned (runAgentLoop env max_steps max_steps 1
        { wants_add := env.wantsAdd, wants_delete := env.wantsDelete } Option.none)

/-! ## Vocabulary used by the verification statements -/

/-- Is a value a dictionary carrying a `"status"` key? -/
def isStatusDict : PyVal → Bool
  | PyVal.dict kvs => (kvs.lookup "status").isSome
  | _ => false

/-- The string stored under `"status"` in a response dictionary, if any. -/
def statusStr : PyVal → Option String
  | PyVal.dict kvs =>
    match kvs.lookup "status" with
    | some (PyVal.str s) => some s
    | _ => Option.none
  | _ => Option.none

/-- Attempt `j` of a skill-routing run failed: the model call raised, or
its output failed validation. -/
def skillAttemptFails (call : Nat → CallOutcome) (j : Nat) : Prop :=
  match call j with
  | CallOutcome.exc _ => True
  | CallOutcome.text t => (_validate_router_output t).1 = false

/-- Attempt `j` of an intent-routing run failed. -/
def intentAttemptFails (call : Nat → CallOutcome) (j : Nat) : Prop :=
  match call j with
  | CallOutcome.exc _ => True
  | CallOutcome.text t => (_validate_intent_output t).1 = false

/-- Invariant on `last_tool_result` inside the agent loop: since every
dispatched tool call carries a *string* argument payload, every recorded
tool result is one of the two local `MCPClient.request` validation errors. -/
def ltrInv : Option String → Prop
  | Option.none => True
  | some r =>
    r = "'arguments' must be a dictionary" ∨ r = "'tool' must be a non-empty string"

/-- The shapes a `run_agent` answer can take: the caught skill-routing
error, a caught gateway error, some assistant message's content, a last
tool result (always a local request-validation error, see `ltrInv`), the
empty-response sentinel, or the step-limit message. -/
def ResultForm (env : AgentEnv) (maxSteps : Nat) (s : String) : Prop :=
  env.routing = Except.error s ∨
  (∃ k, env.model k = ModelOutcome.failure s) ∨
  (∃ k calls, env.model k = ModelOutcome.reply calls s) ∨
  s = "'arguments' must be a dictionary" ∨
  s = "'tool' must be a non-empty string" ∨
  s = "No final answer produced." ∨
  s = maxStepsMessage maxSteps

/-- Removes the trailing whitespace run (the second half of `str.strip()`). -/
def stripTrailing (cs : List Char) : List Char :=
  (cs.reverse.dropWhile isPySpace).reverse

/-- Is a value a Python dictionary? -/
def isDictVal : PyVal → Bool
  | PyVal.dict _ => true
  | _ => false

/-- The character stream printed by `list_tasks` on a non-empty store:
one checklist line plus newline per task. -/
def linesChars (ts : TaskStore) : List Char :=
  (ts.map (fun t => taskLineChars t ++ ['\n'])).flatten

/-! ## Substring lemmas -/

theorem listStartsWith_append_self (m y : List Char) : listStartsWith (m ++ y) m = true := by
  induction m with
  | nil => simp [listStartsWith]
  | cons c ms ih => simp [listStartsWith, ih]

theorem listStartsWith_refl (m : List Char) : listStartsWith m m = true := by
  simpa using listStartsWith_append_self m []

theorem containsSub_of_listStartsWith {hay pat : List Char}
    (h : listStartsWith hay pat = true) : containsSub hay pat = true := by
  cases hay with
  | nil =>
    cases pat with
    | nil => simp [containsSub]
    | cons p ps => simp [listStartsWith] at h
  | cons c cs => simp [containsSub, h]

theorem containsSub_self (m : List Char) : containsSub m m = true :=
  containsSub_of_listStartsWith (listStartsWith_refl m)

theorem listStartsWith_append_right {a : List Char} (b : List Char) {pat : List Char}
    (h : listStartsWith a pat = true) : listStartsWith (a ++ b) pat = true := by
  induction pat generalizing a with
  | nil => simp [listStartsWith]
  | cons p ps ih =>
    cases a with
    | nil => simp [listStartsWith] at h
    | cons c cs =>
      simp only [listStartsWith, Bool.and_eq_true, beq_iff_eq] at h
      simp only [List.cons_append, listStartsWith, Bool.and_eq_true, beq_iff_eq]
      exact ⟨h.1, ih h.2⟩

theorem containsSub_append_right {a : List Char} (b : List Char) {pat : List Char}
    (h : containsSub a pat = true) : containsSub (a ++ b) pat = true := by
  induction a with
  | nil =>
    simp only [containsSub, List.isEmpty_iff] at h
    subst h
    cases b with
    | nil => simp [containsSub]
    | cons c cs => simp [containsSub, listStartsWith]
  | cons c cs ih =>
    simp only [containsSub, Bool.or_eq_true] at h
    rcases h with h | h
    · simp only [List.cons_append, containsSub, Bool.or_eq_true]
      exact Or.inl (by simpa using listStartsWith_append_right b h)
    · simp only [List.cons_append, containsSub, Bool.or_eq_true]
      exact Or.inr (ih h)

theorem containsSub_append_left (a : List Char) {b pat : List Char}
    (h : containsSub b pat = true) : containsSub (a ++ b) pat = true := by
  induction a with
  | nil => simpa using h
  | cons c cs ih => simp [containsSub, ih]

theorem containsSub_mid (x m y : List Char) : containsSub (x ++ (m ++ y)) m = true :=
  containsSub_append_left x (containsSub_append_right y (containsSub_self m))

/-! ## C1: raw argument strings are rejected locally -/

theorem requestLocal_str_args (name rawArgs : String) (h : name ≠ "") :
    requestLocal (PyVal.str name) (PyVal.str rawArgs)
      = LocalOutcome.reply (errResp "'arguments' must be a dictionary") := by
  simp [requestLocal, h]

theorem request_str_args (name rawArgs : String) (h : name ≠ "") (env : ProcEnv) :
    request (PyVal.str name) (PyVal.str rawArgs)
        env = errResp "'arguments' must be a dictionary" := by
  simp [request, requestLocal_str_args name rawArgs h]

/-- Every tool call executed by the agent loop yields one of the two local
request-validation errors, because its argument payload is always a string. -/
theorem agentExecuteToolCall_local_error (c : ToolCall) (env : ProcEnv) :
    agentExecuteToolCall c env = "'arguments' must be a dictionary" ∨
    agentExecuteToolCall c env = "'tool' must be a non-empty string" := by
  by_cases h : c.name = ""
  · right
    simp [agentExecuteToolCall, request, requestLocal, h, errResp, dictGet, List.lookup, pyStr]
  · left
    simp [agentExecuteToolCall, request_str_args c.name _ h env, errResp, dictGet,
      List.lookup, pyStr]

/-- C1: for every string value of `arguments` (including `""`),
`MCPClient.request` returns the `'arguments' must be a dictionary` error
response from its validation prefix, before any I/O on the child process
(the result does not depend on the process state at all); and since
`run_agent` hands each tool call's raw JSON arguments string
(`call.function.arguments or ""`) to `request` unparsed, every dispatched
tool call receives this local error instead of an executed tool result. -/
theorem string_arguments_rejected_before_io
    (name rawArgs : String) (hname : name ≠ "") (env env' : ProcEnv) (c : ToolCall)
    (hc : c.name = name) :
    requestLocal (PyVal.str name) (PyVal.str rawArgs)
        = LocalOutcome.reply (errResp "'arguments' must be a dictionary") ∧
    request (PyVal.str name) (PyVal.str rawArgs) env
        = request (PyVal.str name) (PyVal.str rawArgs) env' ∧
    request (PyVal.str name) (PyVal.str rawArgs) env
        = errResp "'arguments' must be a dictionary" ∧
    agentExecuteToolCall c env = "'arguments' must be a dictionary" := by
  refine ⟨requestLocal_str_args name rawArgs hname, ?_, request_str_args name rawArgs hname env, ?_⟩
  · rw [request_str_args name rawArgs hname env, request_str_args name rawArgs hname env']
  · subst hc
    simp [agentExecuteToolCall, request_str_args c.name _ hname env, errResp, dictGet,
      List.lookup, pyStr]

/-- Witness for C1 at a concrete dispatched tool call. -/
theorem string_arguments_rejected_before_io_witness :
    ("add_task" : String) ≠ "" ∧
    agentExecuteToolCall ⟨"call_1", "add_task", some "\x7b\"text\": \"milk\"\x7d"⟩
        ⟨true, Option.none, ReadResult.disconnected, ""⟩
      = "'arguments' must be a dictionary" :=
  ⟨by decide,
   (string_arguments_rejected_before_io "add_task" "\x7b\"text\": \"milk\"\x7d" (by decide)
      ⟨true, Option.none, ReadResult.disconnected, ""⟩
      ⟨false, some "e", ReadResult.malformed "x", "s"⟩
      ⟨"call_1", "add_task", some "\x7b\"text\": \"milk\"\x7d"⟩ rfl).2.2.2⟩

/-! ## C9: token-parameter compatibility fallback -/

theorem format_contains_model (msg model : String) :
    containsSub (_format_openai_error_message msg model).data model.data = true := by
  unfold _format_openai_error_message
  simp only [String.data_append, List.append_assoc]
  exact containsSub_mid _ _ _

theorem format_contains_msg (msg model : String) :
    containsSub (_format_openai_error_message msg model).data msg.data = true := by
  unfold _format_openai_error_message
  simp only [String.data_append, List.append_assoc]
  exact containsSub_append_left _ (containsSub_append_left _ (containsSub_append_left _
    (containsSub_append_right _ (containsSub_self _))))

/-- C9: the wrapper issues the request with `max_completion_tokens` first;
it retries (exactly once, with `max_tokens`) precisely when the first call
failed with an `unsupported_parameter` error naming that parameter in
quotes; any other failure, and any failure of the second candidate, is
surfaced immediately as the `RuntimeError` message that embeds the model
name and the underlying detail. -/
theorem token_compat_primary_then_fallback {α : Type}
    (call : String → ApiOutcome α) (model : String) :
    ((_create_chat_completion_with_token_compat call model).2.head?
        = some "max_completion_tokens") ∧
    (∀ r, call "max_completion_tokens" = ApiOutcome.ok r →
      _create_chat_completion_with_token_compat call model
        = (Except.ok r, ["max_completion_tokens"])) ∧
    (∀ e, call "max_completion_tokens" = ApiOutcome.exc e →
      _is_unsupported_token_param_error e "max_completion_tokens" = false →
      _create_chat_completion_with_token_compat call model
        = (Except.error (_format_openai_error_message e model), ["max_completion_tokens"])) ∧
    (∀ e, call "max_completion_tokens" = ApiOutcome.exc e →
      _is_unsupported_token_param_error e "max_completion_tokens" = true →
      (_create_chat_completion_with_token_compat call model).2
          = ["max_completion_tokens", "max_tokens"] ∧
      (∀ r, call "max_tokens" = ApiOutcome.ok r →
        (_create_chat_completion_with_token_compat call model).1 = Except.ok r) ∧
      (∀ e2, call "max_tokens" = ApiOutcome.exc e2 →
        (_create_chat_completion_with_token_compat call model).1
          = Except.error (_format_openai_error_message e2 model))) ∧
    ((_create_chat_completion_with_token_compat call model).2
        = ["max_completion_tokens", "max_tokens"] ↔
      ∃ e, call "max_completion_tokens" = ApiOutcome.exc e ∧
        _is_unsupported_token_param_error e "max_completion_tokens" = true) ∧
    (∀ e m, containsSub (_format_openai_error_message e m).data m.data = true ∧
      containsSub (_format_openai_error_message e m).data e.data = true) := by
  refine ⟨?_, ?_, ?_, ?_, ?_, fun e m => ⟨format_contains_model e m, format_contains_msg e m⟩⟩
  · cases hc : call "max_completion_tokens" with
    | ok r => simp [_create_chat_completion_with_token_compat, tokenCompatLoop,
        tokenParamCandidates, hc]
    | exc e =>
      by_cases hu : _is_unsupported_token_param_error e "max_completion_tokens" = true
      · cases hc2 : call "max_tokens" <;>
          simp [_create_chat_completion_with_token_compat, tokenCompatLoop,
            tokenParamCandidates, hc, hu, hc2]
      · simp [_create_chat_completion_with_token_compat, tokenCompatLoop,
          tokenParamCandidates, hc, Bool.eq_false_iff.mpr hu]
  · intro r hc
    simp [_create_chat_completion_with_token_compat, tokenCompatLoop, tokenParamCandidates, hc]
  · intro e hc hu
    simp [_create_chat_completion_with_token_compat, tokenCompatLoop, tokenParamCandidates,
      hc, hu]
  · intro e hc hu
    refine ⟨?_, ?_, ?_⟩
    · cases hc2 : call "max_tokens" <;>
        simp [_create_chat_completion_with_token_compat, tokenCompatLoop,
          tokenParamCandidates, hc, hu, hc2]
    · intro r hc2
      simp [_create_chat_completion_with_token_compat, tokenCompatLoop,
        tokenParamCandidates, hc, hu, hc2]
    · intro e2 hc2
      simp [_create_chat_completion_with_token_compat, tokenCompatLoop,
        tokenParamCandidates, hc, hu, hc2]
  · constructor
    · intro h
      cases hc : call "max_completion_tokens" with
      | ok r =>
        simp [_create_chat_completion_with_token_compat, tokenCompatLoop,
          tokenParamCandidates, hc] at h
      | exc e =>
        by_cases hu : _is_unsupported_token_param_error e "max_completion_tokens" = true
        · exact ⟨e, rfl, hu⟩
        · simp [_create_chat_completion_with_token_compat, tokenCompatLoop,
            tokenParamCandidates, hc, Bool.eq_false_iff.mpr hu] at h
    · rintro ⟨e, hce, hue⟩
      cases hc2 : call "max_tokens" <;>
        simp [_create_chat_completion_with_token_compat, tokenCompatLoop,
          tokenParamCandidates, hce, hue, hc2]

/-- Witness for C9: a first call failing with an `unsupported_parameter`
message triggers exactly one retry with `max_tokens`. -/
theorem token_compat_primary_then_fallback_witness :
    (_create_chat_completion_with_token_compat
        (fun p => (ApiOutcome.exc ("unsupported_parameter '" ++ p ++ "'") : ApiOutcome Nat))
        "gpt-4o-mini").2
      = ["max_completion_tokens", "max_tokens"] :=
  ((token_compat_primary_then_fallback
      (fun p => (ApiOutcome.exc ("unsupported_parameter '" ++ p ++ "'") : ApiOutcome Nat))
      "gpt-4o-mini").2.2.2.1 "unsupported_parameter 'max_completion_tokens'" rfl (by decide)).1

/-! ## C3: MCPClient.request is total and status-tagged -/

theorem errResp_status (m : String) : isStatusDict (errResp m) = true := by
  simp [isStatusDict, errResp, List.lookup]

theorem statusStr_errResp (m : String) : statusStr (errResp m) = some "error" := by
  simp [statusStr, errResp, List.lookup]

theorem request_invalid_tool {tool : PyVal} (arguments : PyVal) (env : ProcEnv)
    (h : toolOk tool = false) :
    request tool arguments env = errResp "'tool' must be a non-empty string" := by
  cases tool <;> simp [toolOk] at h ⊢ <;> simp [request, requestLocal]
  rename_i s
  simp [request, requestLocal, h]

theorem request_invalid_args {tool arguments : PyVal} (env : ProcEnv)
    (h1 : toolOk tool = true) (h2 : argsOk arguments = false) :
    request tool arguments env = errResp "'arguments' must be a dictionary" := by
  cases tool <;> simp [toolOk] at h1
  rename_i t
  cases arguments <;> simp [argsOk] at h2 <;> simp [request, requestLocal, h1]

theorem request_of_valid {tool arguments : PyVal} (env : ProcEnv)
    (h1 : toolOk tool = true) (h2 : argsOk arguments = true) :
    request tool arguments env = requestOverPipe env := by
  cases tool <;> simp [toolOk] at h1
  rename_i t
  cases arguments <;> simp [argsOk] at h2 <;> simp [request, requestLocal, h1]

theorem requestLocal_reply_of_invalid {tool arguments : PyVal}
    (h : toolOk tool = false ∨ argsOk arguments = false) :
    ∃ r, requestLocal tool arguments = LocalOutcome.reply r := by
  cases tool with
  | str s =>
    by_cases hs : s = ""
    · exact ⟨errResp "'tool' must be a non-empty string", by simp [requestLocal, hs]⟩
    · have ha : argsOk arguments = false := by
        rcases h with h | h
        · simp [toolOk, hs] at h
        · exact h
      cases arguments <;> simp [argsOk] at ha <;>
        exact ⟨errResp "'arguments' must be a dictionary", by simp [requestLocal, hs]⟩
  | none => exact ⟨errResp "'tool' must be a non-empty string", by simp [requestLocal]⟩
  | bool b => exact ⟨errResp "'tool' must be a non-empty string", by simp [requestLocal]⟩
  | int n => exact ⟨errResp "'tool' must be a non-empty string", by simp [requestLocal]⟩
  | list xs => exact ⟨errResp "'tool' must be a non-empty string", by simp [requestLocal]⟩
  | dict kvs => exact ⟨errResp "'tool' must be a non-empty string", by simp [requestLocal]⟩

theorem requestOverPipe_status (env : ProcEnv) :
    isStatusDict (requestOverPipe env) = true := by
  unfold requestOverPipe
  by_cases hr : env.running
  · simp only [hr, Bool.not_true, Bool.false_eq_true, if_false]
    match hw : env.writeError with
    | some e => simp [isStatusDict, errResp, List.lookup]
    | Option.none =>
      match hread : env.read with
      | ReadResult.disconnected => simp [isStatusDict, errResp, List.lookup]
      | ReadResult.malformed raw => simp [isStatusDict, List.lookup]
      | ReadResult.value v =>
        match v with
        | PyVal.dict kvs =>
          by_cases hs : (kvs.lookup "status").isSome
          · simp [isStatusDict, hs]
          · simp [isStatusDict, hs, List.lookup]
        | PyVal.none => simp [isStatusDict, errResp, List.lookup]
        | PyVal.bool b => simp [isStatusDict, errResp, List.lookup]
        | PyVal.int n => simp [isStatusDict, errResp, List.lookup]
        | PyVal.str s => simp [isStatusDict, errResp, List.lookup]
        | PyVal.list xs => simp [isStatusDict, errResp, List.lookup]
  · simp [eq_false_of_ne_true hr, isStatusDict, errResp, List.lookup]

/-- C3: `MCPClient.request` never raises (it is a total function into
status-tagged dictionaries): invalid `tool`/`arguments` values are rejected
by the validation prefix before any I/O, and each process/protocol failure
mode — not running, write failure, empty read (with buffered stderr folded
into the message), malformed JSON reply, non-object reply, reply missing
`status` — is converted to a `status: error` result. -/
theorem mcp_request_never_raises (tool arguments : PyVal) (env : ProcEnv) :
    isStatusDict (request tool arguments env) = true ∧
    (toolOk tool = false →
      request tool arguments env = errResp "'tool' must be a non-empty string") ∧
    (toolOk tool = true → argsOk arguments = false →
      request tool arguments env = errResp "'arguments' must be a dictionary") ∧
    (toolOk tool = false ∨ argsOk arguments = false →
      ∃ r, requestLocal tool arguments = LocalOutcome.reply r) ∧
    (toolOk tool = true → argsOk arguments = true → env.running = false →
      request tool arguments env = errResp "Server is not running. Call start() first.") ∧
    (∀ e, toolOk tool = true → argsOk arguments = true → env.running = true →
      env.writeError = some e →
      request tool arguments env = errResp ("Failed to write to server stdin: " ++ e)) ∧
    (toolOk tool = true → argsOk arguments = true → env.running = true →
      env.writeError = Option.none → env.read = ReadResult.disconnected →
      request tool arguments env
        = errResp ("Server disconnected: " ++
            (if pyStrip env.stderrText = "" then "No response from server."
             else pyStrip env.stderrText))) ∧
    (∀ raw, toolOk tool = true → argsOk arguments = true → env.running = true →
      env.writeError = Option.none → env.read = ReadResult.malformed raw →
      statusStr (request tool arguments env) = some "error") ∧
    (∀ v, toolOk tool = true → argsOk arguments = true → env.running = true →
      env.writeError = Option.none → env.read = ReadResult.value v → isDictVal v = false →
      request tool arguments env = errResp "Server response must be a JSON object") ∧
    (∀ kvs, toolOk tool = true → argsOk arguments = true → env.running = true →
      env.writeError = Option.none → env.read = ReadResult.value (PyVal.dict kvs) →
      kvs.lookup "status" = Option.none →
      statusStr (request tool arguments env) = some "error") := by
  refine ⟨?_, fun h => request_invalid_tool arguments env h,
    fun h1 h2 => request_invalid_args env h1 h2, ?_, ?_, ?_, ?_, ?_, ?_, ?_⟩
  · by_cases h1 : toolOk tool = true
    · by_cases h2 : argsOk arguments = true
      · rw [request_of_valid env h1 h2]; exact requestOverPipe_status env
      · rw [request_invalid_args env h1 (eq_false_of_ne_true h2)]; exact errResp_status _
    · rw [request_invalid_tool arguments env (eq_false_of_ne_true h1)]; exact errResp_status _
  · exact fun h => requestLocal_reply_of_invalid h
  · intro h1 h2 hr
    rw [request_of_valid env h1 h2]
    simp [requestOverPipe, hr]
  · intro e h1 h2 hr hw
    rw [request_of_valid env h1 h2]
    simp [requestOverPipe, hr, hw]
  · intro h1 h2 hr hw hread
    rw [request_of_valid env h1 h2]
    simp [requestOverPipe, hr, hw, hread]
  · intro raw h1 h2 hr hw hread
    rw [request_of_valid env h1 h2]
    simp [requestOverPipe, hr, hw, hread, statusStr, List.lookup]
  · intro v h1 h2 hr hw hread hv
    rw [request_of_valid env h1 h2]
    cases v <;> simp [isDictVal] at hv <;>
      simp [requestOverPipe, hr, hw, hread]
  · intro kvs h1 h2 hr hw hread hlook
    rw [request_of_valid env h1 h2]
    simp [requestOverPipe, hr, hw, hread, hlook, statusStr, List.lookup]

/-- Witness for C3: a non-string tool value is rejected locally. -/
theorem mcp_request_never_raises_witness :
    request (PyVal.int 3) PyVal.none ⟨true, Option.none, ReadResult.disconnected, ""⟩
      = errResp "'tool' must be a non-empty string" :=
  (mcp_request_never_raises (PyVal.int 3) PyVal.none
    ⟨true, Option.none, ReadResult.disconnected, ""⟩).2.1 rfl

/-! ## C4: handle_request is total with status ok/error -/

/-- C4: for every input line and store state, `handle_request` returns a
dictionary whose `status` field is exactly `"ok"` or `"error"`, and each
defect — invalid JSON, non-object payload, missing/invalid `tool`,
non-object `arguments`, and any `ValueError` raised by `_dispatch_tool`
(unknown tool or per-tool argument violations) — maps to an error result,
while a successful dispatch wraps the captured text with status `"ok"`. -/
theorem handle_request_status_total (line : ParsedLine) (store : TaskStore) :
    (statusStr (handle_request line store).1 = some "ok" ∨
     statusStr (handle_request line store).1 = some "error") ∧
    (∀ m, line = ParsedLine.malformed m →
      handle_request line store = (errResp ("Invalid JSON: " ++ m), store)) ∧
    (∀ v, line = ParsedLine.value v → isDictVal v = false →
      handle_request line store = (errResp "Request must be a JSON object", store)) ∧
    (∀ kvs, line = ParsedLine.value (PyVal.dict kvs) →
      toolOk (dictGet kvs "tool") = false →
      handle_request line store = (errResp "Missing or invalid 'tool' field", store)) ∧
    (∀ kvs t, line = ParsedLine.value (PyVal.dict kvs) →
      dictGet kvs "tool" = PyVal.str t → t ≠ "" →
      isDictVal ((kvs.lookup "arguments").getD (PyVal.dict [])) = false →
      handle_request line store = (errResp "'arguments' must be a JSON object", store)) ∧
    (∀ kvs t akvs e, line = ParsedLine.value (PyVal.dict kvs) →
      dictGet kvs "tool" = PyVal.str t → t ≠ "" →
      (kvs.lookup "arguments").getD (PyVal.dict []) = PyVal.dict akvs →
      _dispatch_tool t akvs store = Except.error e →
      handle_request line store = (errResp e, store)) ∧
    (∀ kvs t akvs st r, line = ParsedLine.value (PyVal.dict kvs) →
      dictGet kvs "tool" = PyVal.str t → t ≠ "" →
      (kvs.lookup "arguments").getD (PyVal.dict []) = PyVal.dict akvs →
      _dispatch_tool t akvs store = Except.ok (st, r) →
      handle_request line store
        = (PyVal.dict [("status", PyVal.str "ok"), ("result", PyVal.str r)], st)) := by
  refine ⟨?_, ?_, ?_, ?_, ?_, ?_, ?_⟩
  · match line with
    | ParsedLine.malformed m => simp [handle_request, statusStr_errResp]
    | ParsedLine.value v =>
      match v with
      | PyVal.none => simp [handle_request, statusStr_errResp]
      | PyVal.bool b => simp [handle_request, statusStr_errResp]
      | PyVal.int n => simp [handle_request, statusStr_errResp]
      | PyVal.str s => simp [handle_request, statusStr_errResp]
      | PyVal.list xs => simp [handle_request, statusStr_errResp]
      | PyVal.dict kvs =>
        match htool : dictGet kvs "tool" with
        | PyVal.str t =>
          by_cases ht : t = ""
          · simp [handle_request, htool, ht, statusStr_errResp]
          · match hargs : (kvs.lookup "arguments").getD (PyVal.dict []) with
            | PyVal.dict akvs =>
              match hd : _dispatch_tool t akvs store with
              | Except.error e =>
                right
                simp [handle_request, htool, ht, hargs, hd, statusStr_errResp]
              | Except.ok (st, r) =>
                left
                simp [handle_request, htool, ht, hargs, hd, statusStr, List.lookup]
            | PyVal.none => simp [handle_request, htool, ht, hargs, statusStr_errResp]
            | PyVal.bool b => simp [handle_request, htool, ht, hargs, statusStr_errResp]
            | PyVal.int n => simp [handle_request, htool, ht, hargs, statusStr_errResp]
            | PyVal.str s => simp [handle_request, htool, ht, hargs, statusStr_errResp]
            | PyVal.list xs => simp [handle_request, htool, ht, hargs, statusStr_errResp]
        | PyVal.none => simp [handle_request, htool, statusStr_errResp]
        | PyVal.bool b => simp [handle_request, htool, statusStr_errResp]
        | PyVal.int n => simp [handle_request, htool, statusStr_errResp]
        | PyVal.list xs => simp [handle_request, htool, statusStr_errResp]
        | PyVal.dict kvs2 => simp [handle_request, htool, statusStr_errResp]
  · rintro m rfl
    simp [handle_request]
  · rintro v rfl hv
    cases v <;> simp [isDictVal] at hv <;> simp [handle_request]
  · rintro kvs rfl htool
    match h : dictGet kvs "tool" with
    | PyVal.str t =>
      rw [h] at htool
      simp [toolOk] at htool
      simp [handle_request, h, htool]
    | PyVal.none => simp [handle_request, h]
    | PyVal.bool b => simp [handle_request, h]
    | PyVal.int n => simp [handle_request, h]
    | PyVal.list xs => simp [handle_request, h]
    | PyVal.dict kvs2 => simp [handle_request, h]
  · rintro kvs t rfl htool ht hargs
    match h : (kvs.lookup "arguments").getD (PyVal.dict []) with
    | PyVal.dict akvs => rw [h] at hargs; simp [isDictVal] at hargs
    | PyVal.none => simp [handle_request, htool, ht, h]
    | PyVal.bool b => simp [handle_request, htool, ht, h]
    | PyVal.int n => simp [handle_request, htool, ht, h]
    | PyVal.str s => simp [handle_request, htool, ht, h]
    | PyVal.list xs => simp [handle_request, htool, ht, h]
  · rintro kvs t akvs e rfl htool ht hargs hd
    simp [handle_request, htool, ht, hargs, hd]
  · rintro kvs t akvs st r rfl htool ht hargs hd
    simp [handle_request, htool, ht, hargs, hd]

/-- Witness for C4: a request naming an unsupported tool yields a status
error carrying the `Unsupported tool` message. -/
theorem handle_request_status_total_witness :
    handle_request
        (ParsedLine.value (PyVal.dict
          [("tool", PyVal.str "frobnicate"), ("arguments", PyVal.dict [])])) []
      = (errResp "Unsupported tool: frobnicate", []) :=
  (handle_request_status_total _ []).2.2.2.2.2.1
    [("tool", PyVal.str "frobnicate"), ("arguments", PyVal.dict [])]
    "frobnicate" [] "Unsupported tool: frobnicate" rfl rfl (by decide) rfl rfl

/-! ## C6: add-only goal validation -/

/-- C6: for a `wants_add = true, wants_delete = false` state,
`_validate_goal_completion` returns `ok = true` only when at least one
successful add was counted and both list counts were observed with
`latest > initial`; a zero add count, or observed counts with
`latest ≤ initial`, force `ok = false` with a non-empty reason. -/
theorem add_only_goal_validation (st : GoalValidationState)
    (ha : st.wants_add = true) (hd : st.wants_delete = false) :
    ((_validate_goal_completion st).1 = true →
      1 ≤ st.add_success_count ∧
      ∃ ic lc, st.initial_count = some ic ∧ st.latest_count = some lc ∧ ic < lc) ∧
    (st.add_success_count = 0 →
      (_validate_goal_completion st).1 = false ∧ (_validate_goal_completion st).2 ≠ "") ∧
    (∀ i l, st.initial_count = some i → st.latest_count = some l → l ≤ i →
      (_validate_goal_completion st).1 = false ∧ (_validate_goal_completion st).2 ≠ "") := by
  obtain ⟨wa, wd, ic, lc, add, del, sm, spml⟩ := st
  simp only [GoalValidationState.wants_add] at ha
  simp only [GoalValidationState.wants_delete] at hd
  subst ha
  subst hd
  refine ⟨?_, ?_, ?_⟩
  · intro h
    by_cases hadd : add < 1
    · simp [_validate_goal_completion, hadd] at h
    · push_neg at hadd
      refine ⟨hadd, ?_⟩
      match hic : ic with
      | Option.none => simp [_validate_goal_completion, Nat.not_lt.mpr hadd, hic] at h
      | some i =>
        match hlc : lc with
        | Option.none => simp [_validate_goal_completion, Nat.not_lt.mpr hadd, hic, hlc] at h
        | some l =>
          refine ⟨i, l, rfl, rfl, ?_⟩
          by_cases hm : (sm && !spml) = true
          · simp [_validate_goal_completion, Nat.not_lt.mpr hadd, hic, hlc, hm] at h
          · by_cases hle : l ≤ i
            · simp [_validate_goal_completion, Nat.not_lt.mpr hadd, hic, hlc, hm, hle] at h
            · omega
  · intro h0
    subst h0
    constructor <;> simp [_validate_goal_completion]
  · intro i l hi hl hle
    subst hi
    subst hl
    by_cases hadd : add < 1
    · constructor <;> simp [_validate_goal_completion, hadd]
    · have hadd0 : ¬add = 0 := by omega
      by_cases hm : (sm && !spml) = true
      · constructor <;> simp [_validate_goal_completion, hadd0, hm]
      · constructor <;> simp [_validate_goal_completion, hadd0, hm, hle]

/-- Witness for C6 at a concrete state: one counted add but an unchanged
list count is rejected. -/
theorem add_only_goal_validation_witness :
    (_validate_goal_completion
        ⟨true, false, some 2, some 2, 1, 0, true, true⟩).1 = false :=
  ((add_only_goal_validation ⟨true, false, some 2, some 2, 1, 0, true, true⟩
      rfl rfl).2.2 2 2 rfl rfl (by omega)).1

/-! ## C10: validation counters are monotone -/

/-- C10: `_update_validation_state` never decreases the success counters:
a recognized single add/delete success adds one, a recognized bulk delete
adds its reported count only when positive, and every other tool result
leaves both counters unchanged. -/
theorem update_validation_state_monotone (st : GoalValidationState)
    (tool_name tool_result : String) :
    st.add_success_count
        ≤ (_update_validation_state st tool_name tool_result).add_success_count ∧
    st.delete_success_count
        ≤ (_update_validation_state st tool_name tool_result).delete_success_count ∧
    (tool_name = "add_task" → searchAddSuccess tool_result = true →
      (_update_validation_state st tool_name tool_result).add_success_count
          = st.add_success_count + 1 ∧
      (_update_validation_state st tool_name tool_result).delete_success_count
          = st.delete_success_count) ∧
    (tool_name = "add_task" → searchAddSuccess tool_result = false →
      _update_validation_state st tool_name tool_result = st) ∧
    (tool_name = "delete_task" → searchDeleteSuccess tool_result = true →
      (_update_validation_state st tool_name tool_result).delete_success_count
          = st.delete_success_count + 1 ∧
      (_update_validation_state st tool_name tool_result).add_success_count
          = st.add_success_count) ∧
    (tool_name = "delete_task" → searchDeleteSuccess tool_result = false →
      _update_validation_state st tool_name tool_result = st) ∧
    (∀ n, tool_name = "delete_tasks" → searchBulkDelete tool_result = some n → 0 < n →
      (_update_validation_state st tool_name tool_result).delete_success_count
          = st.delete_success_count + n ∧
      (_update_validation_state st tool_name tool_result).add_success_count
          = st.add_success_count) ∧
    (tool_name = "delete_tasks" → searchBulkDelete tool_result = some 0 →
      _update_validation_state st tool_name tool_result = st) ∧
    (tool_name = "delete_tasks" → searchBulkDelete tool_result = Option.none →
      _update_validation_state st tool_name tool_result = st) ∧
    (tool_name = "list_tasks" →
      (_update_validation_state st tool_name tool_result).add_success_count
          = st.add_success_count ∧
      (_update_validation_state st tool_name tool_result).delete_success_count
          = st.delete_success_count) ∧
    (tool_name ≠ "list_tasks" → tool_name ≠ "add_task" → tool_name ≠ "delete_task" →
      tool_name ≠ "delete_tasks" →
      _update_validation_state st tool_name tool_result = st) := by
  have hlist : tool_name = "list_tasks" →
      (_update_validation_state st tool_name tool_result).add_success_count
        = st.add_success_count ∧
      (_update_validation_state st tool_name tool_result).delete_success_count
        = st.delete_success_count := by
    rintro rfl
    unfold _update_validation_state
    match hp : _parse_list_count tool_result with
    | Option.none => simp [hp]
    | some count =>
      by_cases hi : st.initial_count = Option.none <;>
        by_cases hm : st.saw_mutation <;>
          simp [hp, hi, hm]
  have hmono : st.add_success_count
        ≤ (_update_validation_state st tool_name tool_result).add_success_count ∧
      st.delete_success_count
        ≤ (_update_validation_state st tool_name tool_result).delete_success_count := by
    by_cases h1 : tool_name = "list_tasks"
    · rcases hlist h1 with ⟨e1, e2⟩
      omega
    · unfold _update_validation_state
      by_cases h2 : tool_name = "add_task"
      · by_cases hs : searchAddSuccess tool_result <;> simp [h1, h2, hs]
      · by_cases h3 : tool_name = "delete_task"
        · by_cases hs : searchDeleteSuccess tool_result <;> simp [h1, h2, h3, hs]
        · by_cases h4 : tool_name = "delete_tasks"
          · match hb : searchBulkDelete tool_result with
            | Option.none => simp [h1, h2, h3, h4, hb]
            | some n =>
              by_cases hn : n > 0 <;> simp [h1, h2, h3, h4, hb, hn]
          · simp [h1, h2, h3, h4]
  refine ⟨hmono.1, hmono.2, ?_, ?_, ?_, ?_, ?_, ?_, ?_, hlist, ?_⟩
  · rintro rfl hs
    unfold _update_validation_state
    simp [hs]
  · rintro rfl hs
    unfold _update_validation_state
    simp [hs]
  · rintro rfl hs
    unfold _update_validation_state
    simp [hs]
  · rintro rfl hs
    unfold _update_validation_state
    simp [hs]
  · rintro n rfl hb hn
    unfold _update_validation_state
    simp [hb, hn]
  · rintro rfl hb
    unfold _update_validation_state
    simp [hb]
  · rintro rfl hb
    unfold _update_validation_state
    simp [hb]
  · intro h1 h2 h3 h4
    unfold _update_validation_state
    simp [h1, h2, h3, h4]

/-- Witness for C10: a recognized bulk-delete result adds its reported
count. -/
theorem update_validation_state_monotone_witness :
    (_update_validation_state ⟨true, true, some 3, some 3, 0, 2, false, false⟩
        "delete_tasks" "Deleted 2 task(s): 1, 3").delete_success_count = 4 :=
  ((update_validation_state_monotone ⟨true, true, some 3, some 3, 0, 2, false, false⟩
      "delete_tasks" "Deleted 2 task(s): 1, 3").2.2.2.2.2.2.1
    2 rfl (by decide) (by omega)).1

/-! ## C7: delete_tasks is insensitive to duplicate ids -/

theorem mem_pyDedup (x : Int) (l : List Int) : x ∈ pyDedup l ↔ x ∈ l := by
  induction l using pyDedup.induct with
  | case1 => simp [pyDedup]
  | case2 y ys ih =>
    simp only [pyDedup, List.mem_cons, ih, List.mem_filter]
    constructor
    · rintro (rfl | ⟨h, _⟩)
      · left; rfl
      · right; exact h
    · rintro (rfl | h)
      · left; rfl
      · by_cases hx : x = y
        · left; exact hx
        · right; exact ⟨h, by simpa using hx⟩

theorem pyDedup_idem (l : List Int) : pyDedup (pyDedup l) = pyDedup l := by
  induction l using pyDedup.induct with
  | case1 => simp [pyDedup]
  | case2 y ys ih =>
    have hfilter : (pyDedup (ys.filter (fun z => z != y))).filter (fun z => z != y)
        = pyDedup (ys.filter (fun z => z != y)) := by
      apply List.filter_eq_self.mpr
      intro a ha
      have hmem : a ∈ ys.filter (fun z => z != y) := (mem_pyDedup a _).mp ha
      exact (List.mem_filter.mp hmem).2
    simp only [pyDedup]
    rw [hfilter, ih]

/-- C7: `delete_tasks` behaves identically — same resulting store and same
printed confirmation — on an id list and on its order-preserving
deduplication, because the function deduplicates first and every later
step depends only on the deduplicated ids. -/
theorem delete_tasks_dedup_invariant (ids : List Int) (store : TaskStore) :
    delete_tasks ids store = delete_tasks (pyDedup ids) store := by
  unfold delete_tasks
  rw [pyDedup_idem]

/-! ## C5: router retry loops -/

theorem validate_router_output_ok {t : ModelText} {b : Bool} {skills : List String}
    {reason : String} (h : _validate_router_output t = (b, skills, reason))
    (hb : b = true) :
    listNodup skills = true ∧ ∀ s ∈ skills, s ∈ allowedSkillNames := by
  subst hb
  match t with
  | ModelText.notJson => simp [_validate_router_output] at h
  | ModelText.json v =>
    match v with
    | PyVal.none => simp [_validate_router_output] at h
    | PyVal.bool x => simp [_validate_router_output] at h
    | PyVal.int x => simp [_validate_router_output] at h
    | PyVal.str x => simp [_validate_router_output] at h
    | PyVal.list x => simp [_validate_router_output] at h
    | PyVal.dict kvs =>
      by_cases hk : keySetEq (kvs.map Prod.fst) ["skills", "reason"] = true
      · match hsk : dictGet kvs "skills" with
        | PyVal.list items =>
          match hstr : allStrings items with
          | Option.none => simp [_validate_router_output, hk, hsk, hstr] at h
          | some strs =>
            by_cases hnd : listNodup strs = true
            · by_cases hunk : ∀ s ∈ strs, s ∈ allowedSkillNames
              · have hne : ¬∃ x ∈ strs, x ∉ allowedSkillNames := by
                  push_neg
                  exact hunk
                match hr : dictGet kvs "reason" with
                | PyVal.str r =>
                  have heq : _validate_router_output (ModelText.json (PyVal.dict kvs))
                      = (true, strs, r) := by
                    simp [_validate_router_output, hk, hsk, hstr, hnd, hne, hr]
                  rw [heq] at h
                  simp only [Prod.mk.injEq] at h
                  obtain ⟨-, h2, -⟩ := h
                  subst h2
                  exact ⟨hnd, hunk⟩
                | PyVal.none => simp [_validate_router_output, hk, hsk, hstr, hnd, hne, hr] at h
                | PyVal.bool x => simp [_validate_router_output, hk, hsk, hstr, hnd, hne, hr] at h
                | PyVal.int x => simp [_validate_router_output, hk, hsk, hstr, hnd, hne, hr] at h
                | PyVal.list x => simp [_validate_router_output, hk, hsk, hstr, hnd, hne, hr] at h
                | PyVal.dict x => simp [_validate_router_output, hk, hsk, hstr, hnd, hne, hr] at h
              · simp [_validate_router_output, hk, hsk, hstr, hnd, hunk] at h
            · simp [_validate_router_output, hk, hsk, hstr, hnd] at h
        | PyVal.none => simp [_validate_router_output, hk, hsk] at h
        | PyVal.bool x => simp [_validate_router_output, hk, hsk] at h
        | PyVal.int x => simp [_validate_router_output, hk, hsk] at h
        | PyVal.str x => simp [_validate_router_output, hk, hsk] at h
        | PyVal.dict x => simp [_validate_router_output, hk, hsk] at h
      · simp [_validate_router_output, hk] at h

theorem validate_intent_output_ok {t : ModelText} {b wa wd : Bool} {reason : String}
    (h : _validate_intent_output t = (b, (wa, wd), reason)) (hb : b = true) :
    ∃ kvs, t = ModelText.json (PyVal.dict kvs) ∧
      keySetEq (kvs.map Prod.fst) ["wants_add", "wants_delete", "reason"] = true ∧
      dictGet kvs "wants_add" = PyVal.bool wa ∧
      dictGet kvs "wants_delete" = PyVal.bool wd := by
  subst hb
  match t with
  | ModelText.notJson => simp [_validate_intent_output] at h
  | ModelText.json v =>
    match v with
    | PyVal.none => simp [_validate_intent_output] at h
    | PyVal.bool x => simp [_validate_intent_output] at h
    | PyVal.int x => simp [_validate_intent_output] at h
    | PyVal.str x => simp [_validate_intent_output] at h
    | PyVal.list x => simp [_validate_intent_output] at h
    | PyVal.dict kvs =>
      by_cases hk : keySetEq (kvs.map Prod.fst) ["wants_add", "wants_delete", "reason"] = true
      · match ha : dictGet kvs "wants_add" with
        | PyVal.bool a =>
          match hd : dictGet kvs "wants_delete" with
          | PyVal.bool d =>
            match hr : dictGet kvs "reason" with
            | PyVal.str r =>
              have heq : _validate_intent_output (ModelText.json (PyVal.dict kvs))
                  = (true, (a, d), r) := by
                simp [_validate_intent_output, hk, ha, hd, hr]
              rw [heq] at h
              simp only [Prod.mk.injEq] at h
              obtain ⟨-, ⟨h2, h3⟩, -⟩ := h
              subst h2
              subst h3
              exact ⟨kvs, rfl, hk, ha, hd⟩
            | PyVal.none => simp [_validate_intent_output, hk, ha, hd, hr] at h
            | PyVal.bool x => simp [_validate_intent_output, hk, ha, hd, hr] at h
            | PyVal.int x => simp [_validate_intent_output, hk, ha, hd, hr] at h
            | PyVal.list x => simp [_validate_intent_output, hk, ha, hd, hr] at h
            | PyVal.dict x => simp [_validate_intent_output, hk, ha, hd, hr] at h
          | PyVal.none => simp [_validate_intent_output, hk, ha, hd] at h
          | PyVal.int x => simp [_validate_intent_output, hk, ha, hd] at h
          | PyVal.str x => simp [_validate_intent_output, hk, ha, hd] at h
          | PyVal.list x => simp [_validate_intent_output, hk, ha, hd] at h
          | PyVal.dict x => simp [_validate_intent_output, hk, ha, hd] at h
        | PyVal.none => simp [_validate_intent_output, hk, ha] at h
        | PyVal.int x => simp [_validate_intent_output, hk, ha] at h
        | PyVal.str x => simp [_validate_intent_output, hk, ha] at h
        | PyVal.list x => simp [_validate_intent_output, hk, ha] at h
        | PyVal.dict x => simp [_validate_intent_output, hk, ha] at h
      · simp [_validate_intent_output, hk] at h

theorem routeSkillsLoop_spec (call : Nat → CallOutcome) (maxA : Nat) :
    ∀ fuel k le,
      ((routeSkillsLoop call maxA fuel k le).1 = true →
        ∃ j t, k ≤ j ∧ j < k + fuel ∧ call j = CallOutcome.text t ∧
          _validate_router_output t
            = (true, (routeSkillsLoop call maxA fuel k le).2.1,
               (routeSkillsLoop call maxA fuel k le).2.2)) ∧
      ((routeSkillsLoop call maxA fuel k le).1 = false →
        (routeSkillsLoop call maxA fuel k le).2.1 = [] ∧
        (∃ e, (routeSkillsLoop call maxA fuel k le).2.2
            = "Routing failed after " ++ pyIntStr maxA ++ " attempt(s): " ++ e) ∧
        ∀ j, k ≤ j → j < k + fuel → skillAttemptFails call j) := by
  intro fuel
  induction fuel with
  | zero =>
    intro k le
    refine ⟨?_, ?_⟩
    · intro h
      simp [routeSkillsLoop] at h
    · intro _
      refine ⟨rfl, ⟨le, rfl⟩, ?_⟩
      intro j hj1 hj2
      omega
  | succ fuel ih =>
    intro k le
    match hc : call k with
    | CallOutcome.exc e =>
      have heq : routeSkillsLoop call maxA (fuel + 1) k le
          = routeSkillsLoop call maxA fuel (k + 1) ("Model call failed: " ++ e) := by
        simp [routeSkillsLoop, hc]
      rw [heq]
      rcases ih (k + 1) ("Model call failed: " ++ e) with ⟨ih1, ih2⟩
      refine ⟨?_, ?_⟩
      · intro h
        obtain ⟨j, t, hj1, hj2, hcall, hval⟩ := ih1 h
        exact ⟨j, t, by omega, by omega, hcall, hval⟩
      · intro h
        obtain ⟨h1, h2, h3⟩ := ih2 h
        refine ⟨h1, h2, ?_⟩
        intro j hj1 hj2
        by_cases hjk : j = k
        · subst hjk
          simp [skillAttemptFails, hc]
        · exact h3 j (by omega) (by omega)
    | CallOutcome.text t =>
      by_cases hv : (_validate_router_output t).1 = true
      · have heq : routeSkillsLoop call maxA (fuel + 1) k le
            = (true, (_validate_router_output t).2.1, (_validate_router_output t).2.2) := by
          simp [routeSkillsLoop, hc, hv]
        rw [heq]
        refine ⟨?_, ?_⟩
        · intro _
          refine ⟨k, t, le_refl k, by omega, hc, ?_⟩
          rw [← hv]
        · intro h
          simp at h
      · have heq : routeSkillsLoop call maxA (fuel + 1) k le
            = routeSkillsLoop call maxA fuel (k + 1) (_validate_router_output t).2.2 := by
          simp [routeSkillsLoop, hc, hv]
        rw [heq]
        rcases ih (k + 1) (_validate_router_output t).2.2 with ⟨ih1, ih2⟩
        refine ⟨?_, ?_⟩
        · intro h
          obtain ⟨j, t2, hj1, hj2, hcall, hval⟩ := ih1 h
          exact ⟨j, t2, by omega, by omega, hcall, hval⟩
        · intro h
          obtain ⟨h1, h2, h3⟩ := ih2 h
          refine ⟨h1, h2, ?_⟩
          intro j hj1 hj2
          by_cases hjk : j = k
          · subst hjk
            simp [skillAttemptFails, hc]
            exact eq_false_of_ne_true hv
          · exact h3 j (by omega) (by omega)

theorem routeIntentLoop_spec (call : Nat → CallOutcome) (maxA : Nat) :
    ∀ fuel k le,
      ((routeIntentLoop call maxA fuel k le).1 = true →
        ∃ j t, k ≤ j ∧ j < k + fuel ∧ call j = CallOutcome.text t ∧
          _validate_intent_output t
            = (true, (routeIntentLoop call maxA fuel k le).2.1,
               (routeIntentLoop call maxA fuel k le).2.2)) ∧
      ((routeIntentLoop call maxA fuel k le).1 = false →
        (∃ e, (routeIntentLoop call maxA fuel k le).2.2
            = "Intent routing failed after " ++ pyIntStr maxA ++ " attempt(s): " ++ e) ∧
        ∀ j, k ≤ j → j < k + fuel → intentAttemptFails call j) := by
  intro fuel
  induction fuel with
  | zero =>
    intro k le
    refine ⟨?_, ?_⟩
    · intro h
      simp [routeIntentLoop] at h
    · intro _
      refine ⟨⟨le, rfl⟩, ?_⟩
      intro j hj1 hj2
      omega
  | succ fuel ih =>
    intro k le
    match hc : call k with
    | CallOutcome.exc e =>
      have heq : routeIntentLoop call maxA (fuel + 1) k le
          = routeIntentLoop call maxA fuel (k + 1) ("Model call failed: " ++ e) := by
        simp [routeIntentLoop, hc]
      rw [heq]
      rcases ih (k + 1) ("Model call failed: " ++ e) with ⟨ih1, ih2⟩
      refine ⟨?_, ?_⟩
      · intro h
        obtain ⟨j, t, hj1, hj2, hcall, hval⟩ := ih1 h
        exact ⟨j, t, by omega, by omega, hcall, hval⟩
      · intro h
        obtain ⟨h2, h3⟩ := ih2 h
        refine ⟨h2, ?_⟩
        intro j hj1 hj2
        by_cases hjk : j = k
        · subst hjk
          simp [intentAttemptFails, hc]
        · exact h3 j (by omega) (by omega)
    | CallOutcome.text t =>
      by_cases hv : (_validate_intent_output t).1 = true
      · have heq : routeIntentLoop call maxA (fuel + 1) k le
            = (true, (_validate_intent_output t).2.1, (_validate_intent_output t).2.2) := by
          simp [routeIntentLoop, hc, hv]
        rw [heq]
        refine ⟨?_, ?_⟩
        · intro _
          refine ⟨k, t, le_refl k, by omega, hc, ?_⟩
          rw [← hv]
        · intro h
          simp at h
      · have heq : routeIntentLoop call maxA (fuel + 1) k le
            = routeIntentLoop call maxA fuel (k + 1) (_validate_intent_output t).2.2 := by
          simp [routeIntentLoop, hc, hv]
        rw [heq]
        rcases ih (k + 1) (_validate_intent_output t).2.2 with ⟨ih1, ih2⟩
        refine ⟨?_, ?_⟩
        · intro h
          obtain ⟨j, t2, hj1, hj2, hcall, hval⟩ := ih1 h
          exact ⟨j, t2, by omega, by omega, hcall, hval⟩
        · intro h
          obtain ⟨h2, h3⟩ := ih2 h
          refine ⟨h2, ?_⟩
          intro j hj1 hj2
          by_cases hjk : j = k
          · subst hjk
            simp [intentAttemptFails, hc]
            exact eq_false_of_ne_true hv
          · exact h3 j (by omega) (by omega)

/-- C5, amended: for every *non-blank* goal and `max_attempts ≥ 1`, the two
routers either return `ok = true` with output drawn from the allowed
enumeration (skills: a duplicate-free sublist of the allowed names, parsed
from a key-exact JSON object; intent: actual booleans parsed from a
key-exact JSON object), or `ok = false` after all `max_attempts` attempts
failed, with the last error folded into the `... failed after N attempt(s)`
reason; neither ever raises (both are total functions). -/
theorem router_bounded_retry_validation (goal : String)
    (callS callI : Nat → CallOutcome) (ma : Nat)
    (hg : pyStrip goal ≠ "") (hma : 1 ≤ ma) :
    ((route_skills_with_model goal callS ma).1 = true →
      listNodup (route_skills_with_model goal callS ma).2.1 = true ∧
      (∀ s ∈ (route_skills_with_model goal callS ma).2.1, s ∈ allowedSkillNames) ∧
      ∃ j t, j < ma ∧ callS j = CallOutcome.text t ∧
        _validate_router_output t
          = (true, (route_skills_with_model goal callS ma).2.1,
             (route_skills_with_model goal callS ma).2.2)) ∧
    ((route_skills_with_model goal callS ma).1 = false →
      (route_skills_with_model goal callS ma).2.1 = [] ∧
      (∃ e, (route_skills_with_model goal callS ma).2.2
          = "Routing failed after " ++ pyIntStr ma ++ " attempt(s): " ++ e) ∧
      ∀ j < ma, skillAttemptFails callS j) ∧
    ((route_goal_intent_with_model goal callI ma).1 = true →
      ∃ j kvs, j < ma ∧ callI j = CallOutcome.text (ModelText.json (PyVal.dict kvs)) ∧
        keySetEq (kvs.map Prod.fst) ["wants_add", "wants_delete", "reason"] = true ∧
        dictGet kvs "wants_add"
          = PyVal.bool (route_goal_intent_with_model goal callI ma).2.1.1 ∧
        dictGet kvs "wants_delete"
          = PyVal.bool (route_goal_intent_with_model goal callI ma).2.1.2) ∧
    ((route_goal_intent_with_model goal callI ma).1 = false →
      (∃ e, (route_goal_intent_with_model goal callI ma).2.2
          = "Intent routing failed after " ++ pyIntStr ma ++ " attempt(s): " ++ e) ∧
      ∀ j < ma, intentAttemptFails callI j) := by
  have hsEq : route_skills_with_model goal callS ma
      = routeSkillsLoop callS ma ma 0 "No attempts were made." := by
    simp [route_skills_with_model, hg, Nat.not_lt.mpr hma]
  have hiEq : route_goal_intent_with_model goal callI ma
      = routeIntentLoop callI ma ma 0 "No attempts were made." := by
    simp [route_goal_intent_with_model, hg, Nat.not_lt.mpr hma]
  obtain ⟨hs1, hs2⟩ := routeSkillsLoop_spec callS ma ma 0 "No attempts were made."
  obtain ⟨hi1, hi2⟩ := routeIntentLoop_spec callI ma ma 0 "No attempts were made."
  refine ⟨?_, ?_, ?_, ?_⟩
  · intro h
    rw [hsEq] at h ⊢
    obtain ⟨j, t, -, hj2, hcall, hval⟩ := hs1 h
    have hok := validate_router_output_ok hval rfl
    exact ⟨hok.1, hok.2, j, t, by omega, hcall, hval⟩
  · intro h
    rw [hsEq] at h ⊢
    obtain ⟨h1, h2, h3⟩ := hs2 h
    exact ⟨h1, h2, fun j hj => h3 j (by omega) (by omega)⟩
  · intro h
    rw [hiEq] at h ⊢
    obtain ⟨j, t, -, hj2, hcall, hval⟩ := hi1 h
    have hpair : _validate_intent_output t
        = (true, ((routeIntentLoop callI ma ma 0 "No attempts were made.").2.1.1,
                  (routeIntentLoop callI ma ma 0 "No attempts were made.").2.1.2),
           (routeIntentLoop callI ma ma 0 "No attempts were made.").2.2) := hval
    obtain ⟨kvs, hkvs, hk, ha, hd⟩ := validate_intent_output_ok hpair rfl
    exact ⟨j, kvs, by omega, hkvs ▸ hcall, hk, ha, hd⟩
  · intro h
    rw [hiEq] at h ⊢
    obtain ⟨h2, h3⟩ := hi2 h
    exact ⟨h2, fun j hj => h3 j (by omega) (by omega)⟩

/-- Witness for C5 (amended): three invalid attempts on a non-blank goal
exhaust the retries and report the final failure reason. -/
theorem router_bounded_retry_validation_witness :
    pyStrip "add milk" ≠ "" ∧
    (route_skills_with_model "add milk"
        (fun _ => CallOutcome.text ModelText.notJson) 3).2.1 = [] :=
  ⟨by decide,
   ((router_bounded_retry_validation "add milk"
        (fun _ => CallOutcome.text ModelText.notJson)
        (fun _ => CallOutcome.text ModelText.notJson) 3
        (by decide) (by omega)).2.1 (by decide)).1⟩

/-- C5 counterexample: on the empty goal the skills router returns
`ok = false` immediately with the guard reason `Goal must be a non-empty
string.` — no model call and no validation ever happens — even when every
model answer would validate; so "ok=false only after exactly max_attempts
failed validations" is false as universally stated. -/
theorem router_empty_goal_counterexample :
    route_skills_with_model ""
        (fun _ => CallOutcome.text (ModelText.json
          (PyVal.dict [("skills", PyVal.list []), ("reason", PyVal.str "r")]))) 3
      = (false, [], "Goal must be a non-empty string.") ∧
    (_validate_router_output (ModelText.json
        (PyVal.dict [("skills", PyVal.list []), ("reason", PyVal.str "r")]))).1 = true := by
  constructor
  · decide
  · decide

/-! ## C2: run_agent outcomes -/

theorem agentProcessCalls_ltrInv (env : ProcEnv) (calls : List ToolCall)
    (vs : GoalValidationState) (ltr : Option String) (h : ltrInv ltr) :
    ltrInv (agentProcessCalls env calls vs ltr).2 := by
  induction calls generalizing vs ltr with
  | nil => exact h
  | cons c rest ih =>
    simp only [agentProcessCalls]
    apply ih
    by_cases hb : pyStrip (agentExecuteToolCall c env) ≠ ""
    · rw [if_pos hb]
      exact agentExecuteToolCall_local_error c env
    · rw [if_neg hb]
      exact h

theorem runAgentLoop_form (env : AgentEnv) (maxSteps : Nat) :
    ∀ fuel step vs ltr, ltrInv ltr →
      ResultForm env maxSteps (runAgentLoop env maxSteps fuel step vs ltr) := by
  intro fuel
  induction fuel with
  | zero =>
    intro step vs ltr h
    have heq : runAgentLoop env maxSteps 0 step vs ltr = maxStepsMessage maxSteps := by
      simp [runAgentLoop]
    rw [heq]
    exact Or.inr (Or.inr (Or.inr (Or.inr (Or.inr (Or.inr rfl)))))
  | succ fuel ih =>
    intro step vs ltr h
    match hm : env.model step with
    | ModelOutcome.failure msg =>
      have heq : runAgentLoop env maxSteps (fuel + 1) step vs ltr = msg := by
        simp [runAgentLoop, hm]
      rw [heq]
      exact Or.inr (Or.inl ⟨step, hm⟩)
    | ModelOutcome.reply calls content =>
      match calls with
      | c :: cs =>
        have heq : runAgentLoop env maxSteps (fuel + 1) step vs ltr
            = runAgentLoop env maxSteps fuel (step + 1)
                (agentProcessCalls env.proc (c :: cs) vs ltr).1
                (agentProcessCalls env.proc (c :: cs) vs ltr).2 := by
          simp [runAgentLoop, hm]
        rw [heq]
        exact ih (step + 1) _ _ (agentProcessCalls_ltrInv env.proc (c :: cs) vs ltr h)
      | [] =>
        by_cases hcnt : pyStrip content ≠ ""
        · by_cases hval : (_validate_goal_completion vs).1 = true
          · have heq : runAgentLoop env maxSteps (fuel + 1) step vs ltr = content := by
              simp [runAgentLoop, hm, hcnt, hval]
            rw [heq]
            exact Or.inr (Or.inr (Or.inl ⟨step, [], hm⟩))
          · have heq : runAgentLoop env maxSteps (fuel + 1) step vs ltr
                = runAgentLoop env maxSteps fuel (step + 1) vs ltr := by
              simp [runAgentLoop, hm, hcnt, hval]
            rw [heq]
            exact ih (step + 1) vs ltr h
        · by_cases hval : (_validate_goal_completion vs).1 = true
          · match hltr : ltr with
            | some r =>
              have heq : runAgentLoop env maxSteps (fuel + 1) step vs (some r) = r := by
                simp [runAgentLoop, hm, hcnt, hval]
              rw [heq]
              rcases h with h | h
              · exact Or.inr (Or.inr (Or.inr (Or.inl h)))
              · exact Or.inr (Or.inr (Or.inr (Or.inr (Or.inl h))))
            | Option.none =>
              have heq : runAgentLoop env maxSteps (fuel + 1) step vs Option.none
                  = "No final answer produced." := by
                simp [runAgentLoop, hm, hcnt, hval]
              rw [heq]
              exact Or.inr (Or.inr (Or.inr (Or.inr (Or.inr (Or.inl rfl)))))
          · have heq : runAgentLoop env maxSteps (fuel + 1) step vs ltr
                = runAgentLoop env maxSteps fuel (step + 1) vs ltr := by
              simp [runAgentLoop, hm, hcnt, hval]
            rw [heq]
            exact ih (step + 1) vs ltr h

/-- C2, amended: for every goal whose strip is non-empty, and every
routing/intent/process/gateway behaviour in the modelled outcome space,
`run_agent` returns a string (it never raises), and the string is one of
the claimed shapes: a fatal skill-routing or gateway error message, a
validated assistant answer, the last tool result, the sentinel
`No final answer produced.`, or `Stopped after reaching max_steps=N.`.
A *blank* goal instead raises `ValueError` (see the counterexample). -/
theorem run_agent_returns_known_shape (goal : String) (env : AgentEnv) (max_steps : Nat)
    (h : pyStrip goal ≠ "") :
    ∃ s, run_agent goal env max_steps = RunOutcome.returned s ∧ ResultForm env max_steps s := by
  unfold run_agent
  rw [if_neg h]
  match hr : env.routing with
  | Except.error msg => exact ⟨msg, rfl, Or.inl hr⟩
  | Except.ok _ =>
    exact ⟨_, rfl, runAgentLoop_form env max_steps max_steps 1 _ Option.none trivial⟩

/-- Witness for C2 (amended) on a concrete non-blank goal and a gateway
that fails at the first step. -/
theorem run_agent_returns_known_shape_witness :
    pyStrip "add milk" ≠ "" ∧
    ∃ s, run_agent "add milk"
          ⟨Except.ok (), false, false,
           ⟨true, Option.none, ReadResult.disconnected, ""⟩,
           fun _ => ModelOutcome.failure "gateway down"⟩ 3
        = RunOutcome.returned s ∧
      ResultForm
          ⟨Except.ok (), false, false,
           ⟨true, Option.none, ReadResult.disconnected, ""⟩,
           fun _ => ModelOutcome.failure "gateway down"⟩ 3 s :=
  ⟨by decide,
   run_agent_returns_known_shape "add milk"
     ⟨Except.ok (), false, false,
      ⟨true, Option.none, ReadResult.disconnected, ""⟩,
      fun _ => ModelOutcome.failure "gateway down"⟩ 3 (by decide)⟩

/-- C2 counterexample: `run_agent` is *not* total on every goal string —
the blank goal `""` raises `ValueError` (agent.py line 427) instead of
returning a string, for any environment. -/
theorem run_agent_blank_goal_raises :
    run_agent ""
        ⟨Except.ok (), false, false,
         ⟨true, Option.none, ReadResult.disconnected, ""⟩,
         fun _ => ModelOutcome.failure "gateway down"⟩ 15
      = RunOutcome.raised "ValueError: goal must be a non-empty string" := by
  rfl

/-! ## C8: character-class and whitespace lemmas -/

theorem digitChar_digit (m : Nat) : isAsciiDigit (digitChar m) = true := by
  unfold digitChar
  split <;> decide

theorem isPySpace_of_digit {c : Char} (h : isAsciiDigit c = true) : isPySpace c = false := by
  by_contra hc
  rw [Bool.not_eq_false] at hc
  simp only [isPySpace, Bool.or_eq_true, beq_iff_eq] at hc
  rcases hc with ((((rfl | rfl) | rfl) | rfl) | rfl) | rfl <;> revert h <;> decide

theorem ne_newline_of_digit {c : Char} (h : isAsciiDigit c = true) : c ≠ '\n' := by
  rintro rfl
  revert h
  decide

theorem ne_upperN_of_digit {c : Char} (h : isAsciiDigit c = true) : c ≠ 'N' := by
  rintro rfl
  revert h
  decide

theorem natToCharsGo_digits (fuel : Nat) : ∀ n acc,
    (∀ c ∈ acc, isAsciiDigit c = true) →
    ∀ c ∈ natToCharsGo fuel n acc, isAsciiDigit c = true := by
  induction fuel with
  | zero => intro n acc hacc; exact hacc
  | succ fuel ih =>
    intro n acc hacc c hc
    rw [natToCharsGo] at hc
    split at hc
    · rcases List.mem_cons.mp hc with rfl | hc
      · exact digitChar_digit n
      · exact hacc c hc
    · refine ih (n / 10) _ ?_ c hc
      intro d hd
      rcases List.mem_cons.mp hd with rfl | hd
      · exact digitChar_digit _
      · exact hacc d hd

theorem natToChars_digits (n : Nat) : ∀ c ∈ natToChars n, isAsciiDigit c = true :=
  natToCharsGo_digits (n + 1) n [] (by simp)

theorem natToCharsGo_ne_nil (fuel : Nat) : ∀ n acc, acc ≠ [] →
    natToCharsGo fuel n acc ≠ [] := by
  induction fuel with
  | zero => intro n acc h; exact h
  | succ fuel ih =>
    intro n acc h
    rw [natToCharsGo]
    split
    · simp
    · exact ih (n / 10) _ (by simp)

theorem natToChars_ne_nil (n : Nat) : natToChars n ≠ [] := by
  unfold natToChars
  rw [natToCharsGo]
  split
  · simp
  · exact natToCharsGo_ne_nil n (n / 10) _ (by simp)

theorem takeWhile_append_all {p : Char → Bool} {a : List Char} (b : List Char)
    (h : ∀ c ∈ a, p c = true) : (a ++ b).takeWhile p = a ++ b.takeWhile p := by
  induction a with
  | nil => simp
  | cons x xs ih =>
    have hx : p x = true := h x (List.mem_cons_self x xs)
    simp only [List.cons_append, List.takeWhile_cons, hx, if_true]
    rw [ih (fun c hc => h c (List.mem_cons_of_mem x hc))]

theorem dropWhile_append_all {p : Char → Bool} {a : List Char} (b : List Char)
    (h : ∀ c ∈ a, p c = true) : (a ++ b).dropWhile p = b.dropWhile p := by
  induction a with
  | nil => simp
  | cons x xs ih =>
    have hx : p x = true := h x (List.mem_cons_self x xs)
    simp only [List.cons_append, List.dropWhile_cons, hx, if_true]
    exact ih (fun c hc => h c (List.mem_cons_of_mem x hc))

theorem takeWhile_append_stop {p : Char → Bool} {a : List Char} (b : List Char)
    (h : ∃ c ∈ a, p c = false) : (a ++ b).takeWhile p = a.takeWhile p := by
  induction a with
  | nil => simp at h
  | cons x xs ih =>
    by_cases hx : p x = true
    · simp only [List.cons_append, List.takeWhile_cons, hx, if_true]
      rw [ih]
      rcases h with ⟨c, hc, hpc⟩
      rcases List.mem_cons.mp hc with rfl | hc
      · rw [hx] at hpc; exact absurd hpc (by simp)
      · exact ⟨c, hc, hpc⟩
    · rw [Bool.not_eq_true] at hx
      simp [List.takeWhile_cons, hx]

theorem dropWhile_append_stop {p : Char → Bool} {a : List Char} (b : List Char)
    (h : ∃ c ∈ a, p c = false) : (a ++ b).dropWhile p = a.dropWhile p ++ b := by
  induction a with
  | nil => simp at h
  | cons x xs ih =>
    by_cases hx : p x = true
    · simp only [List.cons_append, List.dropWhile_cons, hx, if_true]
      rw [ih]
      rcases h with ⟨c, hc, hpc⟩
      rcases List.mem_cons.mp hc with rfl | hc
      · rw [hx] at hpc; exact absurd hpc (by simp)
      · exact ⟨c, hc, hpc⟩
    · rw [Bool.not_eq_true] at hx
      simp [List.dropWhile_cons, hx]

theorem head_dropWhile_false {p : Char → Bool} :
    ∀ (l : List Char) {c : Char} {rest : List Char},
      l.dropWhile p = c :: rest → p c = false
  | [], _, _, h => by simp at h
  | x :: xs, c, rest, h => by
    by_cases hx : p x = true
    · rw [List.dropWhile_cons, if_pos hx] at h
      exact head_dropWhile_false xs h
    · rw [List.dropWhile_cons, if_neg hx] at h
      obtain ⟨rfl, -⟩ := List.cons.inj h
      exact eq_false_of_ne_true hx

theorem pyStripChars_eq_stripTrailing {c : Char} {cs : List Char}
    (h : isPySpace c = false) : pyStripChars (c :: cs) = stripTrailing (c :: cs) := by
  unfold pyStripChars stripTrailing
  rw [List.dropWhile_cons, if_neg (by simp [h])]

theorem stripTrailing_append_keep {a b : List Char} (h : ∃ c ∈ b, isPySpace c = false) :
    stripTrailing (a ++ b) = a ++ stripTrailing b := by
  unfold stripTrailing
  rw [List.reverse_append]
  rw [dropWhile_append_stop _ (by
    rcases h with ⟨c, hc, hpc⟩
    exact ⟨c, by simpa using hc, hpc⟩)]
  rw [List.reverse_append, List.reverse_reverse]

theorem stripTrailing_append_ws {a w : List Char} (h : ∀ c ∈ w, isPySpace c = true) :
    stripTrailing (a ++ w) = stripTrailing a := by
  unfold stripTrailing
  rw [List.reverse_append]
  rw [dropWhile_append_all _ (fun c hc => h c (by simpa using hc))]

theorem stripTrailing_spec (cs : List Char) (h : ∃ c ∈ cs, isPySpace c = false) :
    ∃ u c, stripTrailing cs = u ++ [c] ∧ isPySpace c = false ∧
      cs = stripTrailing cs ++ (cs.reverse.takeWhile isPySpace).reverse ∧
      (∀ x ∈ (cs.reverse.takeWhile isPySpace).reverse, isPySpace x = true) := by
  have hd : cs.reverse.dropWhile isPySpace ≠ [] := by
    intro hnil
    rcases h with ⟨c, hc, hpc⟩
    have hmem : c ∈ cs.reverse.takeWhile isPySpace ++ cs.reverse.dropWhile isPySpace := by
      rw [List.takeWhile_append_dropWhile]
      simpa using hc
    rw [hnil, List.append_nil] at hmem
    rw [List.mem_takeWhile_imp hmem] at hpc
    exact absurd hpc (by simp)
  match hdw : cs.reverse.dropWhile isPySpace with
  | [] => exact absurd hdw hd
  | c :: rest =>
    refine ⟨rest.reverse, c, ?_, head_dropWhile_false _ hdw, ?_, ?_⟩
    · unfold stripTrailing
      rw [hdw]
      simp
    · conv_lhs => rw [← List.reverse_reverse cs,
        ← List.takeWhile_append_dropWhile (p := isPySpace) (l := cs.reverse)]
      rw [List.reverse_append]
      unfold stripTrailing
      rfl
    · intro x hx
      rw [List.mem_reverse] at hx
      exact List.mem_takeWhile_imp hx

/-! ## C8: scanner lemmas -/

theorem matchTaskLineAt_shrinks {cs : List Char} {rb : List Char × Bool}
    (h : matchTaskLineAt cs = some rb) : rb.1.length < cs.length := by
  unfold matchTaskLineAt at h
  dsimp only at h
  have h0 : (cs.dropWhile isPySpace).length ≤ cs.length :=
    (List.dropWhile_sublist _).length_le
  split at h
  · exact absurd h (by simp)
  · split at h
    · rename_i r2 heq
      have h1 : ('.' :: r2).length ≤ (cs.dropWhile isPySpace).length := by
        rw [← heq]
        exact (List.dropWhile_sublist _).length_le
      split at h
      · exact absurd h (by simp)
      · split at h
        · rename_i c r4 heq2
          have h2 : ('[' :: c :: ']' :: r4).length ≤ r2.length := by
            rw [← heq2]
            exact (List.dropWhile_sublist _).length_le
          split at h
          · split at h
            · exact absurd h (by simp)
            · have h3 : (r4.dropWhile isPySpace).length ≤ r4.length :=
                (List.dropWhile_sublist _).length_le
              obtain ⟨rest, bb⟩ := rb
              simp only [Option.some.injEq, Prod.mk.injEq] at h
              obtain ⟨h4, -⟩ := h
              subst h4
              simp only [List.length_cons] at h1 h2
              simp only [List.length_cons]
              omega
          · exact absurd h (by simp)
        · exact absurd h (by simp)
    · exact absurd h (by simp)

theorem scanTaskLinesGo_fuel_irrel :
    ∀ (fuel1 fuel2 : Nat) (cs : List Char) (b : Bool),
      cs.length < fuel1 → cs.length < fuel2 →
      scanTaskLinesGo fuel1 cs b = scanTaskLinesGo fuel2 cs b := by
  intro fuel1
  induction fuel1 using Nat.strong_induction_on with
  | _ fuel1 ih =>
    intro fuel2 cs b h1 h2
    match fuel1 with
    | 0 => omega
    | f1 + 1 =>
      match fuel2 with
      | 0 => omega
      | f2 + 1 =>
        cases b with
        | true =>
          match hm : matchTaskLineAt cs with
          | some rb =>
            have hlen : rb.1.length < cs.length := matchTaskLineAt_shrinks hm
            simp only [scanTaskLinesGo, hm, if_true]
            congr 1
            exact ih f1 (by omega) f2 rb.1 rb.2 (by omega) (by omega)
          | Option.none =>
            match cs with
            | [] => simp [scanTaskLinesGo, hm]
            | c :: t =>
              simp only [scanTaskLinesGo, hm, if_true]
              exact ih f1 (by omega) f2 t (c == '\n') (by simp at h1; omega)
                (by simp at h2; omega)
        | false =>
          match cs with
          | [] => simp [scanTaskLinesGo]
          | c :: t =>
            simp only [scanTaskLinesGo]
            exact ih f1 (by omega) f2 t (c == '\n') (by simp at h1; omega)
              (by simp at h2; omega)

theorem scanTaskLinesGo_end :
    ∀ (ds : List Char) (fuel : Nat), (∀ c ∈ ds, c ≠ '\n') →
      scanTaskLinesGo fuel ds false = 0 := by
  intro ds
  induction ds with
  | nil =>
    intro fuel _
    match fuel with
    | 0 => rfl
    | f + 1 => simp [scanTaskLinesGo]
  | cons c t ih =>
    intro fuel hds
    match fuel with
    | 0 => rfl
    | f + 1 =>
      have hc : (c == '\n') = false :=
        beq_eq_false_iff_ne.mpr (hds c (List.mem_cons_self c t))
      simp only [scanTaskLinesGo, hc]
      exact ih f (fun x hx => hds x (List.mem_cons_of_mem c hx))

theorem scanTaskLinesGo_skip :
    ∀ (ds rest : List Char) (fuel : Nat),
      (ds ++ '\n' :: rest).length < fuel → (∀ c ∈ ds, c ≠ '\n') →
      scanTaskLinesGo fuel (ds ++ '\n' :: rest) false
        = scanTaskLinesGo (rest.length + 1) rest true := by
  intro ds
  induction ds with
  | nil =>
    intro rest fuel h _
    match fuel with
    | f + 1 =>
      simp only [List.nil_append, scanTaskLinesGo, beq_self_eq_true]
      exact scanTaskLinesGo_fuel_irrel f (rest.length + 1) rest true
        (by simp at h; omega) (by omega)
  | cons c t ih =>
    intro rest fuel h hds
    match fuel with
    | f + 1 =>
      have hc : (c == '\n') = false :=
        beq_eq_false_iff_ne.mpr (hds c (List.mem_cons_self c t))
      simp only [List.cons_append, scanTaskLinesGo, hc]
      exact ih rest f (by simp at h ⊢; omega)
        (fun x hx => hds x (List.mem_cons_of_mem c hx))

theorem mem_of_getLast?_eq_some {l : List Char} {c : Char}
    (h : l.getLast? = some c) : c ∈ l := by
  match l with
  | [] => simp at h
  | x :: xs =>
    have hne : x :: xs ≠ [] := by simp
    rw [List.getLast?_eq_getLast_of_ne_nil hne] at h
    have hc := Option.some.inj h
    rw [← hc]
    exact List.getLast_mem hne

theorem pyIntChars_nonneg {n : Int} (h : 0 ≤ n) : pyIntChars n = natToChars n.toNat := by
  unfold pyIntChars
  rw [if_neg (by omega)]

theorem matchTaskLineAt_on_line (m : Nat) (sc : Char) (hsc : sc = 'x' ∨ sc = ' ')
    (title tail : List Char)
    (hblank : ∃ c ∈ title, isPySpace c = false)
    (hnl : ∀ c ∈ title, c ≠ '\n') :
    matchTaskLineAt
        (natToChars m ++ '.' :: ' ' :: '[' :: sc :: ']' :: ' ' :: (title ++ tail))
      = some (title.dropWhile isPySpace ++ tail, false) := by
  have hdig : ∀ c ∈ natToChars m, isAsciiDigit c = true := natToChars_digits m
  have hnws : ∀ c ∈ natToChars m, isPySpace c = false :=
    fun c hc => isPySpace_of_digit (hdig c hc)
  obtain ⟨d, D', hD⟩ : ∃ d D', natToChars m = d :: D' := by
    match hD : natToChars m with
    | [] => exact absurd hD (natToChars_ne_nil m)
    | d :: D' => exact ⟨d, D', rfl⟩
  have h1 : ((natToChars m
        ++ '.' :: ' ' :: '[' :: sc :: ']' :: ' ' :: (title ++ tail)).dropWhile isPySpace)
      = natToChars m ++ '.' :: ' ' :: '[' :: sc :: ']' :: ' ' :: (title ++ tail) := by
    rw [hD, List.cons_append, List.dropWhile_cons,
      if_neg (by simp [hnws d (hD ▸ List.mem_cons_self d D')])]
  have h2 : ((natToChars m
        ++ '.' :: ' ' :: '[' :: sc :: ']' :: ' ' :: (title ++ tail)).takeWhile isAsciiDigit)
      = natToChars m := by
    rw [takeWhile_append_all _ hdig, List.takeWhile_cons, if_neg (by decide)]
    simp
  have h3 : ((natToChars m
        ++ '.' :: ' ' :: '[' :: sc :: ']' :: ' ' :: (title ++ tail)).dropWhile isAsciiDigit)
      = '.' :: ' ' :: '[' :: sc :: ']' :: ' ' :: (title ++ tail) := by
    rw [dropWhile_append_all _ hdig, List.dropWhile_cons, if_neg (by decide)]
  have h4 : ((' ' :: '[' :: sc :: ']' :: ' ' :: (title ++ tail)).takeWhile isPySpace)
      = [' '] := by
    rw [List.takeWhile_cons, if_pos (by decide), List.takeWhile_cons, if_neg (by decide)]
  have h5 : ((' ' :: '[' :: sc :: ']' :: ' ' :: (title ++ tail)).dropWhile isPySpace)
      = '[' :: sc :: ']' :: ' ' :: (title ++ tail) := by
    rw [List.dropWhile_cons, if_pos (by decide), List.dropWhile_cons, if_neg (by decide)]
  have h6 : (sc == ' ' || sc == 'x' || sc == 'X') = true := by
    rcases hsc with rfl | rfl <;> decide
  have h7 : ((' ' :: (title ++ tail)).takeWhile isPySpace)
      = ' ' :: title.takeWhile isPySpace := by
    rw [List.takeWhile_cons, if_pos (by decide), takeWhile_append_stop _ hblank]
  have h8 : ((' ' :: (title ++ tail)).dropWhile isPySpace)
      = title.dropWhile isPySpace ++ tail := by
    rw [List.dropWhile_cons, if_pos (by decide), dropWhile_append_stop _ hblank]
  have h9 : ((' ' :: title.takeWhile isPySpace).getLast? == some '\n') = false := by
    match hgl : (' ' :: title.takeWhile isPySpace).getLast? with
    | Option.none => rfl
    | some c =>
      have hmem : c ∈ ' ' :: title.takeWhile isPySpace := mem_of_getLast?_eq_some hgl
      have hcne : c ≠ '\n' := by
        rcases List.mem_cons.mp hmem with rfl | hmem
        · decide
        · exact hnl c (List.Sublist.mem hmem (List.takeWhile_sublist _))
      simp [hcne]
  have hne : (natToChars m).isEmpty = false := by rw [hD]; rfl
  unfold matchTaskLineAt
  simp only [h1, h2, h3, hne, List.isEmpty_cons, h4, h5, h6, h7, h8, h9,
    Bool.false_eq_true, if_false, if_true]

/-! ## C8: counting the printed checklist lines -/

theorem taskLineChars_eq (t : Task) (h : 0 ≤ t.id) :
    taskLineChars t = natToChars t.id.toNat
      ++ '.' :: ' ' :: '[' :: (if t.done then 'x' else ' ') :: ']' :: ' ' :: t.title.data := by
  have hd1 : (". ").data = ['.', ' '] := rfl
  have hd2 : ("[x]").data = ['[', 'x', ']'] := rfl
  have hd3 : ("[ ]").data = ['[', ' ', ']'] := rfl
  have hd4 : (" ").data = [' '] := rfl
  unfold taskLineChars
  rw [pyIntChars_nonneg h]
  cases hdone : t.done <;> simp [hd1, hd2, hd3, hd4, List.append_assoc]

theorem list_tasks_output_data (ts : TaskStore) (h : ts ≠ []) :
    ((list_tasks ts).2).data = linesChars ts := by
  match ts with
  | [] => exact absurd rfl h
  | t :: rest => rfl

theorem scan_line_cons (t : Task) (rest : List Char)
    (hid : 0 ≤ t.id) (hblank : ∃ c ∈ t.title.data, isPySpace c = false)
    (hnl : ∀ c ∈ t.title.data, c ≠ '\n')
    (fuel : Nat) (hf : (taskLineChars t ++ '\n' :: rest).length < fuel) :
    scanTaskLinesGo fuel (taskLineChars t ++ '\n' :: rest) true
      = 1 + scanTaskLinesGo (rest.length + 1) rest true := by
  match fuel with
  | f + 1 =>
    have hm : matchTaskLineAt (taskLineChars t ++ '\n' :: rest)
        = some (t.title.data.dropWhile isPySpace ++ '\n' :: rest, false) := by
      have hline := matchTaskLineAt_on_line t.id.toNat (if t.done then 'x' else ' ')
        (by cases t.done <;> simp) t.title.data ('\n' :: rest) hblank hnl
      rw [taskLineChars_eq t hid]
      simpa [List.append_assoc] using hline
    simp only [scanTaskLinesGo, hm, if_true]
    congr 1
    have hdlen : (t.title.data.dropWhile isPySpace).length ≤ t.title.data.length :=
      (List.dropWhile_sublist _).length_le
    have hnat : 1 ≤ (natToChars t.id.toNat).length :=
      List.length_pos.mpr (natToChars_ne_nil _)
    rw [taskLineChars_eq t hid] at hf
    simp only [List.length_append, List.length_cons] at hf
    apply scanTaskLinesGo_skip
    · simp only [List.length_append, List.length_cons]
      omega
    · intro c hc
      exact hnl c (List.Sublist.mem hc (List.dropWhile_sublist _))

theorem scan_line_end (t : Task) (hid : 0 ≤ t.id)
    (hblank : ∃ c ∈ t.title.data, isPySpace c = false)
    (hnl : ∀ c ∈ t.title.data, c ≠ '\n')
    (fuel : Nat) (hf : (stripTrailing (taskLineChars t)).length < fuel) :
    scanTaskLinesGo fuel (stripTrailing (taskLineChars t)) true = 1 := by
  obtain ⟨u, c, hcore, hcns, hdecomp, hwstail⟩ := stripTrailing_spec t.title.data hblank
  have hsplit : stripTrailing (taskLineChars t)
      = natToChars t.id.toNat
        ++ '.' :: ' ' :: '[' :: (if t.done then 'x' else ' ') :: ']' :: ' '
          :: stripTrailing t.title.data := by
    have hshape : taskLineChars t
        = (natToChars t.id.toNat
            ++ ['.', ' ', '[', (if t.done then 'x' else ' '), ']', ' '])
          ++ t.title.data := by
      rw [taskLineChars_eq t hid]
      simp [List.append_assoc]
    rw [hshape, stripTrailing_append_keep
      ⟨c, by rw [hdecomp]; exact List.mem_append_left _ (by rw [hcore]; simp), hcns⟩]
    simp [List.append_assoc]
  have hblank2 : ∃ x ∈ stripTrailing t.title.data, isPySpace x = false :=
    ⟨c, by rw [hcore]; simp, hcns⟩
  have hsub : ∀ x ∈ stripTrailing t.title.data, x ∈ t.title.data := by
    intro x hx
    rw [hdecomp]
    exact List.mem_append_left _ hx
  have hnl2 : ∀ x ∈ stripTrailing t.title.data, x ≠ '\n' :=
    fun x hx => hnl x (hsub x hx)
  match fuel with
  | f + 1 =>
    have hm : matchTaskLineAt (stripTrailing (taskLineChars t))
        = some ((stripTrailing t.title.data).dropWhile isPySpace, false) := by
      have hline := matchTaskLineAt_on_line t.id.toNat (if t.done then 'x' else ' ')
        (by cases t.done <;> simp) (stripTrailing t.title.data) [] hblank2 hnl2
      rw [hsplit]
      simpa using hline
    simp only [scanTaskLinesGo, hm, if_true]
    have hz : scanTaskLinesGo f ((stripTrailing t.title.data).dropWhile isPySpace) false
        = 0 := by
      apply scanTaskLinesGo_end
      intro x hx
      exact hnl2 x (List.Sublist.mem hx (List.dropWhile_sublist _))
    rw [hz]

theorem linesChars_cons (t : Task) (ts : TaskStore) :
    linesChars (t :: ts) = taskLineChars t ++ '\n' :: linesChars ts := by
  unfold linesChars
  simp [List.append_assoc]

theorem pyIntChars_has_nonws (n : Int) : ∃ c ∈ pyIntChars n, isPySpace c = false := by
  unfold pyIntChars
  split
  · exact ⟨'-', List.mem_cons_self _ _, by decide⟩
  · match hD : natToChars n.toNat with
    | [] => exact absurd hD (natToChars_ne_nil _)
    | d :: D' =>
      refine ⟨d, List.mem_cons_self d D', ?_⟩
      exact isPySpace_of_digit (natToChars_digits _ d (hD ▸ List.mem_cons_self d D'))

theorem linesChars_has_nonws (t : Task) (ts : TaskStore) :
    ∃ c ∈ linesChars (t :: ts), isPySpace c = false := by
  obtain ⟨c, hc, hcp⟩ := pyIntChars_has_nonws t.id
  refine ⟨c, ?_, hcp⟩
  rw [linesChars_cons]
  apply List.mem_append_left
  unfold taskLineChars
  exact List.mem_append_left _ (List.mem_append_left _
    (List.mem_append_left _ (List.mem_append_left _ hc)))

theorem scan_text_count : ∀ (ts : TaskStore), ts ≠ [] →
    (∀ t ∈ ts, 0 ≤ t.id) →
    (∀ t ∈ ts, ∃ c ∈ t.title.data, isPySpace c = false) →
    (∀ t ∈ ts, ∀ c ∈ t.title.data, c ≠ '\n') →
    scanTaskLinesGo ((stripTrailing (linesChars ts)).length + 1)
        (stripTrailing (linesChars ts)) true = ts.length := by
  intro ts
  induction ts with
  | nil => intro h; exact absurd rfl h
  | cons t ts ih =>
    intro _ hid hblank hnl
    match hts : ts with
    | [] =>
      have hstrip : stripTrailing (linesChars [t]) = stripTrailing (taskLineChars t) := by
        rw [linesChars_cons]
        unfold linesChars
        simp only [List.map_nil, List.flatten_nil]
        exact stripTrailing_append_ws (by intro c hc; simp at hc; subst hc; decide)
      rw [hstrip]
      exact scan_line_end t (hid t (by simp)) (hblank t (by simp)) (hnl t (by simp))
        _ (by omega)
    | t' :: ts' =>
      have hkeep : stripTrailing (linesChars (t :: t' :: ts'))
          = taskLineChars t ++ '\n' :: stripTrailing (linesChars (t' :: ts')) := by
        rw [linesChars_cons]
        have h1 : ∃ c ∈ linesChars (t' :: ts'), isPySpace c = false :=
          linesChars_has_nonws t' ts'
        rw [show taskLineChars t ++ '\n' :: linesChars (t' :: ts')
            = (taskLineChars t ++ ['\n']) ++ linesChars (t' :: ts') by
          simp [List.append_assoc]]
        rw [stripTrailing_append_keep h1]
        simp [List.append_assoc]
      rw [hkeep]
      rw [scan_line_cons t _ (hid t (by simp)) (hblank t (by simp)) (hnl t (by simp))
        _ (by omega)]
      rw [ih (by simp) (fun x hx => hid x (by simp [hx]))
        (fun x hx => hblank x (by simp [hx])) (fun x hx => hnl x (by simp [hx]))]
      simp only [List.length_cons]
      omega

/-! ## C8: the no-tasks marker cannot appear in a clean listing -/

theorem listStartsWith_before_newline :
    ∀ (m xs ys : List Char), (∀ c ∈ m, c ≠ '\n') →
      listStartsWith (xs ++ '\n' :: ys) m = true → listStartsWith xs m = true := by
  intro m
  induction m with
  | nil =>
    intro xs ys _ _
    cases xs <;> simp [listStartsWith]
  | cons c ms ih =>
    intro xs ys hm h
    match xs with
    | [] =>
      simp only [List.nil_append, listStartsWith, Bool.and_eq_true, beq_iff_eq] at h
      exact absurd h.1.symm (hm c (List.mem_cons_self c ms))
    | x :: xt =>
      simp only [List.cons_append, listStartsWith, Bool.and_eq_true, beq_iff_eq] at h ⊢
      exact ⟨h.1, ih xt ys (fun d hd => hm d (List.mem_cons_of_mem c hd)) h.2⟩

theorem containsSub_split_newline :
    ∀ (xs ys m : List Char), (∀ c ∈ m, c ≠ '\n') →
      containsSub (xs ++ '\n' :: ys) m = true →
      containsSub xs m = true ∨ containsSub ys m = true := by
  intro xs
  induction xs with
  | nil =>
    intro ys m hm h
    simp only [List.nil_append, containsSub, Bool.or_eq_true] at h
    rcases h with h | h
    · match m with
      | [] => left; simp [containsSub]
      | c :: ms =>
        simp only [listStartsWith, Bool.and_eq_true, beq_iff_eq] at h
        exact absurd h.1.symm (hm c (List.mem_cons_self c ms))
    · right; exact h
  | cons x xt ih =>
    intro ys m hm h
    simp only [List.cons_append, containsSub, Bool.or_eq_true] at h
    rcases h with h | h
    · left
      have hx := listStartsWith_before_newline m (x :: xt) ys hm (by simpa using h)
      exact containsSub_of_listStartsWith hx
    · rcases ih ys m hm h with h | h
      · left
        simp [containsSub, h]
      · right; exact h

theorem containsSub_skip_leading {mc : Char} {ms : List Char} :
    ∀ (P rest : List Char), (∀ x ∈ P, x ≠ mc) →
      containsSub (P ++ rest) (mc :: ms) = true → containsSub rest (mc :: ms) = true := by
  intro P
  induction P with
  | nil =>
    intro rest _ h
    simpa using h
  | cons p pt ih =>
    intro rest hp h
    simp only [List.cons_append, containsSub, Bool.or_eq_true] at h
    rcases h with h | h
    · simp only [listStartsWith, Bool.and_eq_true, beq_iff_eq] at h
      exact absurd h.1 (hp p (List.mem_cons_self p pt))
    · exact ih rest (fun x hx => hp x (List.mem_cons_of_mem p hx)) h

theorem marker_no_newline : ∀ c ∈ ("No tasks yet.").data, c ≠ '\n' := by decide

theorem taskLine_no_marker (t : Task) (hid : 0 ≤ t.id)
    (hmark : containsSub t.title.data ("No tasks yet.").data = false) :
    containsSub (taskLineChars t) ("No tasks yet.").data = false := by
  by_contra hc
  rw [Bool.not_eq_false] at hc
  obtain ⟨sc, hscd, hsc⟩ :
      ∃ sc, (if t.done then 'x' else ' ') = sc ∧ (sc = 'x' ∨ sc = ' ') := by
    by_cases hdone : t.done = true
    · exact ⟨'x', by simp [hdone], Or.inl rfl⟩
    · exact ⟨' ', by simp [hdone], Or.inr rfl⟩
  have hshape : taskLineChars t
      = (natToChars t.id.toNat ++ ['.', ' ', '[', sc, ']', ' ']) ++ t.title.data := by
    rw [taskLineChars_eq t hid, hscd]
    simp [List.append_assoc]
  rw [hshape] at hc
  have hP : ∀ x ∈ natToChars t.id.toNat ++ ['.', ' ', '[', sc, ']', ' '], x ≠ 'N' := by
    intro x hx
    rcases List.mem_append.mp hx with hx | hx
    · exact ne_upperN_of_digit (natToChars_digits _ x hx)
    · rcases hsc with rfl | rfl <;> fin_cases hx <;> decide
  have hmk : ("No tasks yet.").data = 'N' :: ("o tasks yet.").data := rfl
  rw [hmk] at hc hmark
  rw [containsSub_skip_leading _ _ hP hc] at hmark
  exact absurd hmark (by simp)

theorem linesChars_no_marker : ∀ (ts : TaskStore),
    (∀ t ∈ ts, 0 ≤ t.id) →
    (∀ t ∈ ts, containsSub t.title.data ("No tasks yet.").data = false) →
    containsSub (linesChars ts) ("No tasks yet.").data = false := by
  intro ts
  induction ts with
  | nil => intro _ _; decide
  | cons t rest ih =>
    intro hid hmark
    by_contra hc
    rw [Bool.not_eq_false, linesChars_cons] at hc
    rcases containsSub_split_newline _ _ _ marker_no_newline hc with h | h
    · rw [taskLine_no_marker t (hid t (by simp)) (hmark t (by simp))] at h
      exact absurd h (by simp)
    · rw [ih (fun x hx => hid x (by simp [hx])) (fun x hx => hmark x (by simp [hx]))] at h
      exact absurd h (by simp)

theorem stripTrailing_decomp (cs : List Char) :
    cs = stripTrailing cs ++ (cs.reverse.takeWhile isPySpace).reverse := by
  conv_lhs => rw [← List.reverse_reverse cs,
    ← List.takeWhile_append_dropWhile (p := isPySpace) (l := cs.reverse)]
  rw [List.reverse_append]
  rfl

theorem containsSub_pyStripChars {cs m : List Char}
    (h : containsSub cs m = false) : containsSub (pyStripChars cs) m = false := by
  by_contra hc
  rw [Bool.not_eq_false] at hc
  have h1 : pyStripChars cs = stripTrailing (cs.dropWhile isPySpace) := rfl
  rw [h1] at hc
  have h2 : containsSub cs m = true := by
    rw [← List.takeWhile_append_dropWhile (p := isPySpace) (l := cs)]
    apply containsSub_append_left
    rw [stripTrailing_decomp (cs.dropWhile isPySpace)]
    exact containsSub_append_right _ hc
  rw [h] at h2
  exact absurd h2 (by simp)

/-- C8, amended: for every store whose task ids are non-negative and whose
titles contain no newline, contain at least one non-whitespace character,
and do not contain the marker substring `No tasks yet.`, the count that
`_parse_list_count` extracts from the captured `list_tasks` output equals
the number of stored tasks (an empty store prints the marker, which parses
to zero). -/
theorem list_count_roundtrip (tasks : TaskStore)
    (hid : ∀ t ∈ tasks, 0 ≤ t.id)
    (hnl : ∀ t ∈ tasks, ∀ c ∈ t.title.data, c ≠ '\n')
    (hblank : ∀ t ∈ tasks, ∃ c ∈ t.title.data, isPySpace c = false)
    (hmark : ∀ t ∈ tasks, containsSub t.title.data ("No tasks yet.").data = false) :
    _parse_list_count (_capture_storage_output (list_tasks tasks).2) = some tasks.length := by
  match tasks with
  | [] => decide
  | t :: ts =>
    have hid0 : 0 ≤ t.id := hid t (by simp)
    have hnonws : ∃ c ∈ linesChars (t :: ts), isPySpace c = false :=
      linesChars_has_nonws t ts
    obtain ⟨d, D', hD⟩ : ∃ d D', natToChars t.id.toNat = d :: D' := by
      match hD : natToChars t.id.toNat with
      | [] => exact absurd hD (natToChars_ne_nil _)
      | d :: D' => exact ⟨d, D', rfl⟩
    obtain ⟨c0, rest0, hLc, hc0⟩ :
        ∃ c0 rest0, linesChars (t :: ts) = c0 :: rest0 ∧ isPySpace c0 = false := by
      rw [linesChars_cons, taskLineChars_eq t hid0, hD, List.cons_append, List.cons_append]
      exact ⟨d, _, rfl,
        isPySpace_of_digit (natToChars_digits _ d (hD ▸ List.mem_cons_self d D'))⟩
    have hstrip : pyStripChars (linesChars (t :: ts))
        = stripTrailing (linesChars (t :: ts)) := by
      rw [hLc]
      exact pyStripChars_eq_stripTrailing hc0
    obtain ⟨u, cl, hcore, -, -, -⟩ := stripTrailing_spec (linesChars (t :: ts)) hnonws
    have hne : (⟨pyStripChars (linesChars (t :: ts))⟩ : String) ≠ "" := by
      intro hx
      have hdata := congrArg String.data hx
      rw [show ((⟨pyStripChars (linesChars (t :: ts))⟩ : String)).data
          = pyStripChars (linesChars (t :: ts)) from rfl] at hdata
      rw [hstrip, hcore] at hdata
      simp at hdata
    have hout : (list_tasks (t :: ts)).2 = (⟨linesChars (t :: ts)⟩ : String) := rfl
    have hps : pyStrip (⟨linesChars (t :: ts)⟩ : String)
        = (⟨pyStripChars (linesChars (t :: ts))⟩ : String) := rfl
    have hcap : _capture_storage_output (⟨linesChars (t :: ts)⟩ : String)
        = (⟨pyStripChars (linesChars (t :: ts))⟩ : String) := by
      unfold _capture_storage_output
      rw [hps, if_neg hne]
    have hmarkSL : containsSub (pyStripChars (linesChars (t :: ts)))
        (("No tasks yet.").data) = false :=
      containsSub_pyStripChars (linesChars_no_marker (t :: ts) hid hmark)
    have hscan : scanTaskLines (pyStripChars (linesChars (t :: ts))) = (t :: ts).length := by
      unfold scanTaskLines
      rw [hstrip]
      exact scan_text_count (t :: ts) (by simp) hid hblank hnl
    rw [hout, hcap]
    unfold _parse_list_count
    rw [show ((⟨pyStripChars (linesChars (t :: ts))⟩ : String)).data
        = pyStripChars (linesChars (t :: ts)) from rfl]
    rw [if_neg (by simp [hmarkSL])]
    simp [hscan]

/-- Witness for C8 (amended) at a concrete two-task store. -/
theorem list_count_roundtrip_witness :
    _parse_list_count (_capture_storage_output
        (list_tasks [⟨1, "Buy milk", false⟩, ⟨2, "Walk dog", true⟩]).2) = some 2 :=
  list_count_roundtrip [⟨1, "Buy milk", false⟩, ⟨2, "Walk dog", true⟩]
    (by decide) (by decide) (by decide) (by decide)

/-- C8 counterexample: a store holding the single task titled
`No tasks yet.` prints `1. [ ] No tasks yet.`, which `_parse_list_count`
reads as zero tasks — not one — because the no-tasks marker check fires on
substring containment; so the claimed count equality fails for this choice
of title. -/
theorem list_count_marker_title_counterexample :
    _parse_list_count (_capture_storage_output
        (list_tasks [⟨1, "No tasks yet.", false⟩]).2) = some 0 ∧
    ([⟨1, "No tasks yet.", false⟩] : TaskStore).length = 1 := by
  constructor
  · decide
  · rfl

end TaskManager
